import Mathlib

/-!
Verification of the deadlock real-time match service.

This file shallowly embeds the correctness-critical backend services
(RedisService, GameService, MatchmakingService, DeadlockSocketServer,
BotPlayer) as pure Lean functions over an explicit store state, and proves
the specification claims about them.  Redis operations are modelled at the
granularity of their atomic primitives: a Lua script or MULTI/EXEC block is
one step of the model, matching the atomicity the store guarantees.
-/

namespace Deadlock

/-- TestCase from types/index.ts: `{input, expectedOutput, isHidden?}`.
The optional boolean `isHidden` is modelled with `false` for absent. -/
structure TestCase where
  input : String
  expectedOutput : String
  isHidden : Bool
  deriving Repr, DecidableEq

/-- Problem from types/index.ts (checker fields omitted: not used by the
match layer modelled here). -/
structure Problem where
  id : String
  title : String
  description : String
  difficulty : String
  testCases : List TestCase
  deriving Repr, DecidableEq

/-- QueueEntry from types/index.ts. JS numbers are modelled as integers:
every number this system stores in a queue entry is an integer. -/
structure QueueEntry where
  userId : String
  socketId : String
  username : String
  elo : Int
  joinedAt : Int
  deriving Repr, DecidableEq

/-- One side of MatchState from types/index.ts. -/
structure PlayerState where
  id : String
  socketId : String
  username : String
  elo : Int
  deriving Repr, DecidableEq

/-- MatchState from types/index.ts.  `status` is kept as a string, exactly
as in TypeScript where it is a string-literal union and `getMatch` returns
the stored string through an unchecked cast. -/
structure MatchState where
  id : String
  player1 : PlayerState
  player2 : PlayerState
  problemId : String
  problemTitle : String
  status : String
  winnerId : Option String
  startedAt : Int
  finishedAt : Option Int
  deriving Repr, DecidableEq

/-! ## Decimal string codec

`RedisService.createMatch` stores numeric fields with JS
`Number.prototype.toString` and `getMatch` reads them back with
`parseInt(s, 10)`.  We model the integer fragment of both functions. -/

/-- Little-endian base-10 digit list, computed with structural recursion
on a fuel argument so that concrete instances reduce inside the kernel;
`natToDigitsRev_eq_digits` identifies it with `Nat.digits 10`. -/
def natToDigitsRev : Nat → Nat → List Nat
  | _, 0 => []
  | 0, _ + 1 => []
  | fuel + 1, n + 1 => (n + 1) % 10 :: natToDigitsRev fuel ((n + 1) / 10)

theorem natToDigitsRev_eq_digits : ∀ (fuel n : Nat), n ≤ fuel →
    natToDigitsRev fuel n = Nat.digits 10 n
  | _, 0, _ => by simp [natToDigitsRev]
  | 0, n + 1, h => by omega
  | fuel + 1, n + 1, h => by
    rw [natToDigitsRev, Nat.digits_def' (b := 10) (by norm_num) (Nat.succ_pos n)]
    congr 1
    exact natToDigitsRev_eq_digits fuel ((n + 1) / 10)
      (by
        have hlt : (n + 1) / 10 < n + 1 := Nat.div_lt_self (Nat.succ_pos n) (by norm_num)
        omega)

/-- Decimal rendering of a natural number, as produced by JS
`Number.prototype.toString()` on a nonnegative integer. -/
def natToString (n : Nat) : String :=
  if n = 0 then "0"
  else String.mk (((natToDigitsRev n n).map Nat.digitChar).reverse)

theorem natToString_data (n : Nat) (h0 : n ≠ 0) :
    (natToString n).data = ((Nat.digits 10 n).map Nat.digitChar).reverse := by
  simp [natToString, h0, natToDigitsRev_eq_digits n n le_rfl]

/-- Decimal rendering of an integer, as produced by JS
`Number.prototype.toString()` on an integer value. -/
def jsIntToString (n : Int) : String :=
  if n < 0 then "-" ++ natToString n.natAbs else natToString n.natAbs

/-- Numeric value of a decimal digit character. -/
def digitVal (c : Char) : Nat := c.toNat - 48

/-- Parse a list of characters as a decimal natural number the way
`parseInt(_, 10)` does: take the leading run of digits, fail (NaN) if it is
empty.  `none` models the JS `NaN` result. -/
def parseNat10 (cs : List Char) : Option Nat :=
  let ds := cs.takeWhile Char.isDigit
  if ds.isEmpty then none
  else some (ds.foldl (fun a c => a * 10 + digitVal c) 0)

/-- JS `parseInt(s, 10)` restricted to the strings this service produces
(no leading whitespace or plus sign ever occurs).  `none` models `NaN`. -/
def jsParseInt (s : String) : Option Int :=
  match s.data with
  | [] => none
  | c :: rest =>
    if c = '-' then (parseNat10 rest).map (fun m => -(Int.ofNat m))
    else (parseNat10 (c :: rest)).map (fun m => Int.ofNat m)

theorem digitChar_isDigit {d : Nat} (hd : d < 10) :
    (Nat.digitChar d).isDigit = true := by
  interval_cases d <;> decide

theorem digitVal_digitChar {d : Nat} (hd : d < 10) :
    digitVal (Nat.digitChar d) = d := by
  interval_cases d <;> decide

theorem takeWhile_all_eq {p : α → Bool} :
    ∀ {l : List α}, (∀ a ∈ l, p a = true) → l.takeWhile p = l
  | [], _ => rfl
  | a :: t, h => by
    have ha := h a (List.mem_cons_self a t)
    simp only [List.takeWhile_cons, ha]
    exact congrArg (a :: ·) (takeWhile_all_eq (fun b hb => h b (List.mem_cons_of_mem a hb)))

theorem foldl_digits_aux (L : List Nat) (a : Nat) :
    L.reverse.foldl (fun x d => x * 10 + d) a
      = a * 10 ^ L.length + Nat.ofDigits 10 L := by
  induction L generalizing a with
  | nil => simp [Nat.ofDigits]
  | cons d T ih =>
    simp only [List.reverse_cons, List.foldl_append, List.foldl_cons, List.foldl_nil,
      Nat.ofDigits_cons, List.length_cons, ih]
    ring

theorem parseNat10_natToString (n : Nat) :
    parseNat10 (natToString n).data = some n := by
  by_cases h0 : n = 0
  · subst h0; decide
  · have hdig : ∀ c ∈ ((Nat.digits 10 n).map Nat.digitChar).reverse, c.isDigit = true := by
      intro c hc
      rw [List.mem_reverse] at hc
      obtain ⟨d, hd, rfl⟩ := List.mem_map.mp hc
      exact digitChar_isDigit (Nat.digits_lt_base (by norm_num) hd)
    rw [natToString_data n h0]
    unfold parseNat10
    rw [takeWhile_all_eq hdig]
    have hne : ((Nat.digits 10 n).map Nat.digitChar).reverse ≠ [] := by
      simp [Nat.digits_ne_nil_iff_ne_zero, h0]
    rw [if_neg (by simpa [List.isEmpty_iff] using hne)]
    congr 1
    rw [← List.map_reverse, List.foldl_map]
    have hfold : (Nat.digits 10 n).reverse.foldl
        (fun a c => a * 10 + digitVal (Nat.digitChar c)) 0
        = (Nat.digits 10 n).reverse.foldl (fun a d => a * 10 + d) 0 := by
      apply List.foldl_ext
      intro a d hd
      rw [List.mem_reverse] at hd
      rw [digitVal_digitChar (Nat.digits_lt_base (by norm_num) hd)]
    rw [hfold, foldl_digits_aux, Nat.ofDigits_digits]
    simp

theorem natToString_head_digit (n : Nat) :
    ∀ c, c ∈ (natToString n).data → c.isDigit = true := by
  intro c hc
  by_cases h0 : n = 0
  · subst h0; simp [natToString] at hc; subst hc; decide
  · rw [natToString_data n h0, List.mem_reverse] at hc
    obtain ⟨d, hd, rfl⟩ := List.mem_map.mp hc
    exact digitChar_isDigit (Nat.digits_lt_base (by norm_num) hd)

/-- Round trip of the decimal codec on integers: parsing the rendered
string recovers the integer, matching `parseInt(n.toString(), 10) === n`
for every integer JS number `n`. -/
theorem jsParseInt_jsIntToString (n : Int) :
    jsParseInt (jsIntToString n) = some n := by
  have hres := parseNat10_natToString n.natAbs
  by_cases hneg : n < 0
  · have hdata : (jsIntToString n).data = '-' :: (natToString n.natAbs).data := by
      simp [jsIntToString, if_pos hneg, String.data_append]
    unfold jsParseInt
    rw [hdata]
    simp only [reduceIte, hres, Option.map_some']
    congr 1
    simp only [Int.ofNat_eq_coe]
    omega
  · have hdata : (jsIntToString n).data = (natToString n.natAbs).data := by
      simp [jsIntToString, if_neg hneg]
    have hne : (natToString n.natAbs).data ≠ [] := by
      intro hcon
      unfold parseNat10 at hres
      rw [hcon] at hres
      simp at hres
    cases hd : (natToString n.natAbs).data with
    | nil => exact absurd hd hne
    | cons c rest =>
      have hcd : c.isDigit = true :=
        natToString_head_digit n.natAbs c (by rw [hd]; exact List.mem_cons_self c rest)
      have hcne : ¬(c = '-') := by
        intro hEq
        rw [hEq] at hcd
        exact absurd hcd (by decide)
      unfold jsParseInt
      rw [hdata, hd]
      simp only [if_neg hcne]
      rw [← hd, hres]
      simp only [Option.map_some']
      congr 1
      simp only [Int.ofNat_eq_coe]
      omega

/-! ## Redis store model

The store holds the matchmaking queue (a Redis list at `queue`, whose
elements are JSON-serialized `QueueEntry` values; serialization is the
identity in this model since `JSON.parse ∘ JSON.stringify` is the identity
on these records), one hash per match (key `match:{id}`, modelled with the
match id as key), a `user:{id}:match` pointer per participant and a
`user:{id}:socket` pointer per connected user.  Key expiry (TTL) is not
modelled: no claim depends on it. -/

/-- The Redis hash stored for a match by `RedisService.createMatch`.
Every field is a string, exactly as in Redis.  An absent field and a field
holding the empty string are indistinguishable through the operations used
(`HGETALL` then falsy checks), so absent fields are modelled as `""`. -/
structure MatchHash where
  id : String
  player1_id : String
  player1_socketId : String
  player1_username : String
  player1_elo : String
  player2_id : String
  player2_socketId : String
  player2_username : String
  player2_elo : String
  problemId : String
  problemTitle : String
  status : String
  winnerId : String
  startedAt : String
  finishedAt : String
  deriving Repr, DecidableEq

/-- Association-list update: replace the binding of `k`, or append it. -/
def updateAssoc (l : List (String × α)) (k : String) (v : α) : List (String × α) :=
  match l with
  | [] => [(k, v)]
  | (k', v') :: t => if k' = k then (k, v) :: t else (k', v') :: updateAssoc t k v

/-- Association-list lookup. -/
def lookupAssoc (l : List (String × α)) (k : String) : Option α :=
  match l with
  | [] => none
  | (k', v) :: t => if k' = k then some v else lookupAssoc t k

/-- Association-list removal (Redis `DEL`). -/
def removeAssoc (l : List (String × α)) (k : String) : List (String × α) :=
  match l with
  | [] => []
  | (k', v) :: t => if k' = k then removeAssoc t k else (k', v) :: removeAssoc t k

theorem lookupAssoc_updateAssoc_self (l : List (String × α)) (k : String) (v : α) :
    lookupAssoc (updateAssoc l k v) k = some v := by
  induction l with
  | nil => simp [updateAssoc, lookupAssoc]
  | cons hd t ih =>
    obtain ⟨k', v'⟩ := hd
    by_cases h : k' = k
    · simp [updateAssoc, lookupAssoc, h]
    · simp [updateAssoc, lookupAssoc, h, ih]

theorem lookupAssoc_updateAssoc_ne (l : List (String × α)) (k k2 : String) (v : α)
    (h : k2 ≠ k) : lookupAssoc (updateAssoc l k v) k2 = lookupAssoc l k2 := by
  have hkk2 : ¬(k = k2) := fun hc => h hc.symm
  induction l with
  | nil =>
    unfold updateAssoc lookupAssoc
    rw [if_neg hkk2]
    rfl
  | cons hd t ih =>
    obtain ⟨k', v'⟩ := hd
    by_cases hk : k' = k
    · subst hk
      show lookupAssoc (updateAssoc ((k', v') :: t) k' v) k2
          = lookupAssoc ((k', v') :: t) k2
      unfold updateAssoc
      rw [if_pos rfl]
      unfold lookupAssoc
      rw [if_neg hkk2, if_neg hkk2]
    · show lookupAssoc (updateAssoc ((k', v') :: t) k v) k2
          = lookupAssoc ((k', v') :: t) k2
      unfold updateAssoc
      rw [if_neg hk]
      unfold lookupAssoc
      by_cases hk2 : k' = k2
      · rw [if_pos hk2, if_pos hk2]
      · rw [if_neg hk2, if_neg hk2, ih]

/-- The live Redis state used by the match layer. -/
structure RedisStore where
  queue : List QueueEntry
  matchTable : List (String × MatchHash)
  userMatch : List (String × String)
  userSocket : List (String × String)
  deriving Repr, DecidableEq

namespace RedisService

/-- Encoding of a `MatchState` into the Redis hash written by
`RedisService.createMatch` (the object literal passed to `HSET`):
numbers via `toString`, `winnerId || ''`, `finishedAt?.toString() || ''`. -/
def encodeMatch (m : MatchState) : MatchHash where
  id := m.id
  player1_id := m.player1.id
  player1_socketId := m.player1.socketId
  player1_username := m.player1.username
  player1_elo := jsIntToString m.player1.elo
  player2_id := m.player2.id
  player2_socketId := m.player2.socketId
  player2_username := m.player2.username
  player2_elo := jsIntToString m.player2.elo
  problemId := m.problemId
  problemTitle := m.problemTitle
  status := m.status
  winnerId := m.winnerId.getD ""
  startedAt := jsIntToString m.startedAt
  finishedAt := (m.finishedAt.map jsIntToString).getD ""

/-- Decoding performed by `RedisService.getMatch` on the `HGETALL` result:
`null` when the hash is missing or has no `id` field; otherwise numbers via
`parseInt(_, 10)`, `winnerId || null`, `finishedAt ? parseInt : null`, and
`status` passed through unchanged (the TS cast checks nothing).
A `parseInt` producing `NaN` yields a junk record in the source; such a
hash is never written by any operation modelled here, and the junk record
is modelled as a decode failure (`none`). -/
def decodeMatch (h : MatchHash) : Option MatchState :=
  if h.id = "" then none
  else
    match jsParseInt h.player1_elo, jsParseInt h.player2_elo, jsParseInt h.startedAt,
      (if h.finishedAt = "" then some none else (jsParseInt h.finishedAt).map some) with
    | some e1, some e2, some t0, some fin =>
      some
        { id := h.id
          player1 := ⟨h.player1_id, h.player1_socketId, h.player1_username, e1⟩
          player2 := ⟨h.player2_id, h.player2_socketId, h.player2_username, e2⟩
          problemId := h.problemId
          problemTitle := h.problemTitle
          status := h.status
          winnerId := if h.winnerId = "" then none else some h.winnerId
          startedAt := t0
          finishedAt := fin }
    | _, _, _, _ => none

/-- RedisService.createMatch: write the hash at `match:{id}` and point both
participants' `user:{id}:match` keys at the match (TTLs not modelled). -/
def createMatch (st : RedisStore) (m : MatchState) : RedisStore :=
  { st with
    matchTable := updateAssoc st.matchTable m.id (encodeMatch m)
    userMatch :=
      updateAssoc (updateAssoc st.userMatch m.player1.id m.id) m.player2.id m.id }

/-- RedisService.getMatch. -/
def getMatch (st : RedisStore) (matchId : String) : Option MatchState :=
  match lookupAssoc st.matchTable matchId with
  | none => none
  | some h => decodeMatch h

/-- RedisService.getUserMatchId. -/
def getUserMatchId (st : RedisStore) (userId : String) : Option String :=
  lookupAssoc st.userMatch userId

/-- RedisService.setMatchWinner: the atomic Lua check-and-set.  The script
reads the `status` field (nil on a missing key, hence not `'active'`); only
when it is exactly `'active'` does it write `status='finished'`,
`winnerId`, `finishedAt=Date.now().toString()` and return 1.  The whole
script is one atomic step of the model. -/
def setMatchWinner (st : RedisStore) (matchId winnerId : String) (now : Int) :
    RedisStore × Bool :=
  match lookupAssoc st.matchTable matchId with
  | none => (st, false)
  | some h =>
    if h.status = "active" then
      let h2 : MatchHash :=
        { h with status := "finished", winnerId := winnerId,
                 finishedAt := jsIntToString now }
      ({ st with matchTable := updateAssoc st.matchTable matchId h2 }, true)
    else (st, false)

/-- RedisService.updateMatchStatus: plain `HSET status`.  `HSET` on a
missing key creates the hash with only that field (all others absent,
i.e. `""` in this model). -/
def updateMatchStatus (st : RedisStore) (matchId status : String) : RedisStore :=
  match lookupAssoc st.matchTable matchId with
  | none =>
    let h2 : MatchHash :=
      { id := "", player1_id := "", player1_socketId := "", player1_username := "",
        player1_elo := "", player2_id := "", player2_socketId := "",
        player2_username := "", player2_elo := "", problemId := "",
        problemTitle := "", status := status, winnerId := "", startedAt := "",
        finishedAt := "" }
    { st with matchTable := updateAssoc st.matchTable matchId h2 }
  | some h =>
    let h2 : MatchHash := { h with status := status }
    { st with matchTable := updateAssoc st.matchTable matchId h2 }

/-- RedisService.enqueue: reject if the userId is already present, else
`RPUSH` and return the 1-indexed position (-1 on the duplicate). -/
def enqueue (st : RedisStore) (e : QueueEntry) : RedisStore × Int :=
  if st.queue.any (fun q => q.userId == e.userId) then (st, -1)
  else ({ st with queue := st.queue ++ [e] }, (st.queue.length : Int) + 1)

/-- RedisService.dequeue: the atomic Lua scan-and-`LREM` removing the first
queue entry with the given userId; returns whether one was found. -/
def dequeue (st : RedisStore) (userId : String) : RedisStore × Bool :=
  if st.queue.any (fun q => q.userId == userId) then
    ({ st with queue := st.queue.eraseP (fun q => q.userId == userId) }, true)
  else (st, false)

/-- RedisService.popTwoPlayers: a MULTI/EXEC of two `LPOP`s.  With at least
two entries both pops succeed; with exactly one the popped entry is pushed
back to the head (`LPUSH`) and `null` is returned; with none, `null`. -/
def popTwoPlayers (st : RedisStore) : RedisStore × Option (QueueEntry × QueueEntry) :=
  match st.queue with
  | a :: b :: rest => ({ st with queue := rest }, some (a, b))
  | [a] => ({ st with queue := [a] }, none)
  | [] => (st, none)

/-- RedisService.deleteUserSocket. -/
def deleteUserSocket (st : RedisStore) (userId : String) : RedisStore :=
  { st with userSocket := removeAssoc st.userSocket userId }

end RedisService

/-! ## Outbound events and deferred callbacks

Socket.io emissions are modelled as a list of `Event` values produced by
each handler; `setTimeout` registrations are modelled as a list of `Timer`
values (the deferred callback bodies are embedded as separate functions
below and the claims quantify over when, and whether, they fire). -/

/-- Where an emission goes: a single socket or a match room. -/
inductive Target where
  | socket (socketId : String)
  | room (matchId : String)
  deriving Repr, DecidableEq

/-- Opponent public profile inside a `match_found` payload.  The bot path
additionally attaches a cosmetic random `stats` object; it carries no
state and is not modelled. -/
structure OpponentInfo where
  id : String
  username : String
  elo : Int
  deriving Repr, DecidableEq

/-- MatchFoundPayload from types/index.ts.  The `problem` block has the
same five fields as `Problem`. -/
structure MatchFoundPayload where
  matchId : String
  problem : Problem
  opponent : OpponentInfo
  startTime : Int
  deriving Repr, DecidableEq

/-- SubmissionResult from types/index.ts (the optional diagnostic fields
stdout/stderr/time/memory/testResults are not modelled; no claim reads
them). `status` is one of accepted/wrong_answer/runtime_error/time_limit/
compile_error. -/
structure SubmissionResult where
  status : String
  passed : Int
  total : Int
  deriving Repr, DecidableEq

/-- The server-to-client events of ServerToClientEvents that the embedded
handlers emit. -/
inductive Event where
  | errorEvt (target : Target) (message : String) (code : Option String)
  | matchFound (target : Target) (payload : MatchFoundPayload)
  | gameOver (target : Target) (winnerId : Option String) (reason : String)
      (newElo : Option Int)
  | opponentProgress (target : Target) (playerId : String) (status : String)
      (testsProgress : Option String) (percentage : Option Int)
  | submissionResult (target : Target) (result : SubmissionResult)
  deriving Repr, DecidableEq

/-- The `setTimeout` registrations the match layer creates: the per-match
timeout (MatchmakingService.setMatchTimeout), the delayed `bot.start()` in
createBotMatch, and the delayed match cleanup in GameService. -/
inductive Timer where
  | matchTimeout (matchId : String) (delayMs : Int)
  | botStartTimer (matchId : String) (delayMs : Int)
  | cleanup (matchId : String) (delayMs : Int)
  deriving Repr, DecidableEq

/-- Result of running one socket-event handler: the new store, the
emissions it produced in order, and the timers it registered. -/
structure HandlerResult where
  store : RedisStore
  events : List Event
  timers : List Timer
  deriving Repr, DecidableEq

namespace GameService

/-- GameService.calculateEloChange:
`round(K * (1 - 1/(1 + 10^((loserElo - winnerElo)/400))))` with K = 32.
JS arithmetic on doubles is modelled as exact real arithmetic;
`Math.round x = ⌊x + 1/2⌋` agrees with Mathlib's `round` on the values that
occur. -/
noncomputable def calculateEloChange (winnerElo loserElo : Int) : Int :=
  let K : ℝ := 32
  let expectedScore : ℝ :=
    1 / (1 + (10 : ℝ) ^ ((((loserElo : ℝ) - (winnerElo : ℝ)) / 400) : ℝ))
  round (K * (1 - expectedScore))

/-- GameService.handlePotentialWin.  The submitter's socket is
`submitterSocketId`, the connectivity of other sockets is the predicate
`sockets` (io.sockets.sockets.get).  The write to the external PostgreSQL
persistence collaborator (saveMatchToDatabase) and the language-name
mapping feeding it are outside the shared match state and are not
modelled. -/
noncomputable def handlePotentialWin (st : RedisStore) (sockets : String → Bool)
    (submitterSocketId userId : String) (m : MatchState) (passed total : Int)
    (now : Int) : HandlerResult :=
  let matchId := m.id
  let res := RedisService.setMatchWinner st matchId userId now
  if res.2 = false then
    { store := res.1
      events := [.errorEvt (.socket submitterSocketId) "Match already finished"
          (some "MATCH_FINISHED")]
      timers := [] }
  else
    let solvedEvt := Event.opponentProgress (.room matchId) userId "✅ Solved!"
      (some (toString passed ++ "/" ++ toString total)) none
    match RedisService.getMatch res.1 matchId with
    | none => { store := res.1, events := [solvedEvt], timers := [] }
    | some _finalMatch =>
      let winnerElo := if userId = m.player1.id then m.player1.elo else m.player2.elo
      let loserElo := if userId = m.player1.id then m.player2.elo else m.player1.elo
      let eloChange := calculateEloChange winnerElo loserElo
      let loserSocketId :=
        if m.player1.id = userId then m.player2.socketId else m.player1.socketId
      let winnerEvt := Event.gameOver (.socket submitterSocketId) (some userId)
        "You solved it first!" (some (winnerElo + eloChange))
      let loserEvts :=
        if sockets loserSocketId then
          [Event.gameOver (.socket loserSocketId) (some userId)
            "Opponent solved first" (some (loserElo - eloChange))]
        else []
      { store := res.1
        events := solvedEvt :: winnerEvt :: loserEvts
        timers := [.cleanup matchId 60000] }

/-- GameService.handleSubmission.  The external collaborators are
parameters: `problems` is problemService.getProblemById and `judge` is the
outcome of judgeService.executeCode (`Except.error` models a thrown
execution error). -/
noncomputable def handleSubmission (st : RedisStore) (sockets : String → Bool)
    (socketId userId : String) (currentMatchId : Option String)
    (problems : String → Option Problem) (judge : Except String SubmissionResult)
    (now : Int) : HandlerResult :=
  match currentMatchId with
  | none =>
    { store := st
      events := [.errorEvt (.socket socketId) "You are not in a match"
          (some "NOT_IN_MATCH")]
      timers := [] }
  | some matchId =>
    match RedisService.getMatch st matchId with
    | none =>
      { store := st
        events := [.errorEvt (.socket socketId) "Match not found"
            (some "MATCH_NOT_FOUND")]
        timers := [] }
    | some m =>
      if m.status ≠ "active" then
        { store := st
          events := [.errorEvt (.socket socketId) "Match is not active"
              (some "MATCH_NOT_ACTIVE")]
          timers := [] }
      else
        let testingEvt := Event.opponentProgress (.room matchId) userId
          "Testing..." none none
        match problems m.problemId with
        | none =>
          { store := st
            events := [testingEvt, .errorEvt (.socket socketId)
                "Problem test cases not found" (some "PROBLEM_NOT_FOUND")]
            timers := [] }
        | some problem =>
          if problem.testCases.isEmpty then
            { store := st
              events := [testingEvt, .errorEvt (.socket socketId)
                  "Problem test cases not found" (some "PROBLEM_NOT_FOUND")]
              timers := [] }
          else
            match judge with
            | .error _msg =>
              { store := st
                events := [testingEvt,
                  .opponentProgress (.room matchId) userId "⚠️ Error" none none,
                  .submissionResult (.socket socketId)
                    ⟨"runtime_error", 0, (problem.testCases.length : Int)⟩]
                timers := [] }
            | .ok result =>
              let tp := toString result.passed ++ "/" ++ toString result.total
              let tallyEvt := Event.opponentProgress (.room matchId) userId
                (if result.status = "accepted" then "Checking..." else "Testing...")
                (some tp) none
              let resultEvt := Event.submissionResult (.socket socketId) result
              if result.status = "accepted" then
                let r := handlePotentialWin st sockets socketId userId m
                  result.passed result.total now
                { store := r.store
                  events := testingEvt :: tallyEvt :: resultEvt :: r.events
                  timers := r.timers }
              else
                { store := st
                  events := [testingEvt, tallyEvt, resultEvt,
                    .opponentProgress (.room matchId) userId "❌ Failed" (some tp) none]
                  timers := [] }

/-- GameService.handleForfeit.  On a missing currentMatchId, a missing
match, or a non-active match the handler plain-returns: no event, no state
change.  The Elo computation and database write on the success path only
feed the external persistence collaborator and are not modelled; the
emitted game_over events carry no newElo in the source. -/
def handleForfeit (st : RedisStore) (sockets : String → Bool)
    (socketId userId : String) (currentMatchId : Option String) (now : Int) :
    HandlerResult :=
  match currentMatchId with
  | none => { store := st, events := [], timers := [] }
  | some matchId =>
    match RedisService.getMatch st matchId with
    | none => { store := st, events := [], timers := [] }
    | some m =>
      if m.status ≠ "active" then { store := st, events := [], timers := [] }
      else
        let winnerId := if m.player1.id = userId then m.player2.id else m.player1.id
        let res := RedisService.setMatchWinner st matchId winnerId now
        if res.2 then
          let winnerSocketId :=
            if m.player1.id = winnerId then m.player1.socketId else m.player2.socketId
          let winnerEvts :=
            if sockets winnerSocketId then
              [Event.gameOver (.socket winnerSocketId) (some winnerId)
                "Opponent forfeited" none]
            else []
          { store := res.1
            events := winnerEvts ++
              [Event.gameOver (.socket socketId) (some winnerId) "You forfeited" none]
            timers := [.cleanup matchId 60000] }
        else { store := res.1, events := [], timers := [] }

end GameService

namespace MatchmakingService

/-- Identity of a BotPlayer as seen by the matchmaking layer: the random
`bot_xxxxxxxxx` id and the random display name drawn in the BotPlayer
constructor. -/
structure BotInfo where
  id : String
  username : String
  deriving Repr, DecidableEq

/-- Effective per-match timeout: `config.match.timeoutMs || 1800000`.
JS `||` falls back on a falsy (0) configured value; NaN cannot occur for
the integer configuration modelled here. -/
def effectiveTimeoutMs (cfgTimeoutMs : Int) : Int :=
  if cfgTimeoutMs = 0 then 1800000 else cfgTimeoutMs

/-- MatchmakingService.createMatch (the human-human path).  `matchId` is
the fresh uuid, `problem?` the result of problemService.getRandomProblem,
`now` the Date.now() instant (startedAt and the payload startTime both
read it).  Socket room joins and the `socket.data.currentMatchId`
assignments are connection-layer state, not store state, and are left to
the claims' `currentMatchId` parameters. -/
def createMatch (st : RedisStore) (p1 p2 : QueueEntry) (matchId : String)
    (problem? : Option Problem) (cfgTimeoutMs : Int) (now : Int) : HandlerResult :=
  match problem? with
  | none =>
    let st1 := (RedisService.enqueue st p1).1
    let st2 := (RedisService.enqueue st1 p2).1
    { store := st2, events := [], timers := [] }
  | some problem =>
    let matchState : MatchState :=
      { id := matchId
        player1 := ⟨p1.userId, p1.socketId, p1.username, p1.elo⟩
        player2 := ⟨p2.userId, p2.socketId, p2.username, p2.elo⟩
        problemId := problem.id
        problemTitle := problem.title
        status := "active"
        winnerId := none
        startedAt := now
        finishedAt := none }
    let st1 := RedisService.createMatch st matchState
    let payload1 : MatchFoundPayload :=
      { matchId := matchId
        problem :=
          { id := problem.id, title := problem.title,
            description := problem.description, difficulty := problem.difficulty,
            testCases := problem.testCases.filter (fun tc => !tc.isHidden) }
        opponent := ⟨p2.userId, p2.username, p2.elo⟩
        startTime := matchState.startedAt }
    let payload2 : MatchFoundPayload :=
      { matchId := matchId
        problem :=
          { id := problem.id, title := problem.title,
            description := problem.description, difficulty := problem.difficulty,
            testCases := problem.testCases.filter (fun tc => !tc.isHidden) }
        opponent := ⟨p1.userId, p1.username, p1.elo⟩
        startTime := matchState.startedAt }
    { store := st1
      events := [.matchFound (.socket p1.socketId) payload1,
                 .matchFound (.socket p2.socketId) payload2]
      timers := [.matchTimeout matchId (effectiveTimeoutMs cfgTimeoutMs)] }

/-- MatchmakingService.createBotMatch.  The bot match payload passes
`problem.testCases` through unfiltered, unlike the human-human path.  The
only timer registered is the delayed `bot.start()`; no match timeout is
set on this path.  The two Date.now() calls (startedAt, payload startTime)
are modelled as the same instant `now`. -/
def createBotMatch (st : RedisStore) (player : QueueEntry) (bot : BotInfo)
    (matchId : String) (problem? : Option Problem) (now : Int) : HandlerResult :=
  match problem? with
  | none =>
    { store := st
      events := [.errorEvt (.socket player.socketId)
          "Failed to create match. Please try again." none]
      timers := [] }
  | some problem =>
    let matchState : MatchState :=
      { id := matchId
        player1 := ⟨player.userId, player.socketId, player.username, player.elo⟩
        player2 := ⟨bot.id, "bot", bot.username, 1000⟩
        problemId := problem.id
        problemTitle := problem.title
        status := "active"
        winnerId := none
        startedAt := now
        finishedAt := none }
    let st1 := RedisService.createMatch st matchState
    let payload : MatchFoundPayload :=
      { matchId := matchId
        problem :=
          { id := problem.id, title := problem.title,
            description := problem.description, difficulty := problem.difficulty,
            testCases := problem.testCases }
        opponent := ⟨bot.id, bot.username, 1000⟩
        startTime := now }
    { store := st1
      events := [.matchFound (.socket player.socketId) payload]
      timers := [.botStartTimer matchId 3000] }

/-- Body of the MatchmakingService.setMatchTimeout callback, run when the
per-match timeout fires: if the match still exists and is active, force
status to finished via a plain HSET (winnerId is untouched) and notify the
room with a null-winner game_over; otherwise do nothing. -/
def matchTimeoutFired (st : RedisStore) (matchId : String) : RedisStore × List Event :=
  match RedisService.getMatch st matchId with
  | some m =>
    if m.status = "active" then
      (RedisService.updateMatchStatus st matchId "finished",
       [Event.gameOver (.room matchId) none "Match timed out - no winner" none])
    else (st, [])
  | none => (st, [])

/-- MatchmakingService.handleDisconnect: always dequeue, then if the user
resolves to a match (socket data first, user→match pointer as fallback)
that is still active, run the same atomic check-and-set awarding the other
side, emitting the room game_over only when this call performed the
transition; finally drop the user's socket pointer. -/
def handleDisconnect (st : RedisStore) (userId : String)
    (currentMatchId : Option String) (now : Int) : RedisStore × List Event :=
  let st1 := (RedisService.dequeue st userId).1
  let matchId? :=
    match currentMatchId with
    | some mid => some mid
    | none => RedisService.getUserMatchId st1 userId
  match matchId? with
  | none => (RedisService.deleteUserSocket st1 userId, [])
  | some matchId =>
    match RedisService.getMatch st1 matchId with
    | some m =>
      if m.status = "active" then
        let winnerId := if m.player1.id = userId then m.player2.id else m.player1.id
        let res := RedisService.setMatchWinner st1 matchId winnerId now
        if res.2 then
          (RedisService.deleteUserSocket res.1 userId,
           [Event.gameOver (.room matchId) (some winnerId) "Opponent disconnected" none])
        else (RedisService.deleteUserSocket res.1 userId, [])
      else (RedisService.deleteUserSocket st1 userId, [])
    | none => (RedisService.deleteUserSocket st1 userId, [])

end MatchmakingService

namespace SocketServer

/-- Modelled from the spec: `RedisService.updateMatchSocketId` is called by
DeadlockSocketServer on reconnect and rejoin, but its definition is not
among the provided sources.  Per §4.5 of the spec the layer "updates the
stored connection reference for that side": the hash socketId field of the
side whose user id matches is replaced, nothing else changes. -/
def updateMatchSocketId (st : RedisStore) (matchId userId socketId : String) :
    RedisStore :=
  match lookupAssoc st.matchTable matchId with
  | none => st
  | some h =>
    if h.player1_id = userId then
      let h2 : MatchHash := { h with player1_socketId := socketId }
      { st with matchTable := updateAssoc st.matchTable matchId h2 }
    else if h.player2_id = userId then
      let h2 : MatchHash := { h with player2_socketId := socketId }
      { st with matchTable := updateAssoc st.matchTable matchId h2 }
    else st

/-- DeadlockSocketServer.handleRejoinMatch.  Validation order as in the
source: match existence, participation, active status; then the socket
reference is refreshed and the problem is fetched (a missing problem
yields PROBLEM_NOT_FOUND), and finally match_found is re-emitted with the
hidden test cases filtered out.  The room join and
`socket.data.currentMatchId` assignment are connection-layer state. -/
def handleRejoinMatch (st : RedisStore) (userId socketId matchId : String)
    (problems : String → Option Problem) : RedisStore × List Event :=
  match RedisService.getMatch st matchId with
  | none =>
    (st, [.errorEvt (.socket socketId) "Match not found or has ended"
        (some "MATCH_NOT_FOUND")])
  | some m =>
    let isPlayer1 := m.player1.id == userId
    let isPlayer2 := m.player2.id == userId
    if !isPlayer1 && !isPlayer2 then
      (st, [.errorEvt (.socket socketId) "You are not a participant in this match"
          (some "NOT_PARTICIPANT")])
    else if m.status ≠ "active" then
      (st, [.errorEvt (.socket socketId)
          ("Match has ended (status: " ++ m.status ++ ")") (some "MATCH_ENDED")])
    else
      let st1 := updateMatchSocketId st matchId userId socketId
      match problems m.problemId with
      | none =>
        (st1, [.errorEvt (.socket socketId) "Problem data not found"
            (some "PROBLEM_NOT_FOUND")])
      | some problem =>
        let opponent := if isPlayer1 then m.player2 else m.player1
        (st1, [.matchFound (.socket socketId)
          { matchId := m.id
            problem :=
              { id := problem.id, title := problem.title,
                description := problem.description, difficulty := problem.difficulty,
                testCases := problem.testCases.filter (fun tc => !tc.isHidden) }
            opponent := ⟨opponent.id, opponent.username, opponent.elo⟩
            startTime := m.startedAt }])

end SocketServer

namespace BotPlayer

/-- The random draws fixed in the BotPlayer constructor: identity, the
fail/succeed roll (`shouldFail`), the failure percentage in [15, 85], plus
the wrong-answer tally drawn in failSolution (drawn per call in the
source; one bot fails at most one realized draw per completion, and no
claim depends on its value). -/
structure BotSim where
  botId : String
  matchId : String
  shouldFail : Bool
  failurePoint : Int
  failTestsPassed : Int
  deriving Repr, DecidableEq

/-- The mutable BotPlayer fields the callbacks read and write.  The
`timeouts` array is represented at the scheduler level: `stop` clears it,
so cancelled checkpoint timers simply never fire; the claims quantify over
every sequence of timers that do fire. -/
structure BotState where
  isStopped : Bool
  progress : Int
  deriving Repr, DecidableEq

/-- One pending `setTimeout` callback of a bot: a checkpoint scheduled by
`start()` (held in the cancellable `timeouts` array), or one of the two
nested delayed completions scheduled inside submitWinningSolution /
failSolution (not held in that array). -/
inductive BotTimer where
  | checkpoint (percentage : Int) (status : String)
  | completeSuccess
  | completeFailed (testsPassed : Int)
  deriving Repr, DecidableEq

/-- BotCompletionResult from BotPlayer.ts. -/
structure BotCompletionResult where
  botId : String
  result : String
  testsPassed : Int
  totalTests : Int
  deriving Repr, DecidableEq

/-- The checkpoint schedule of generateProgressCheckpoints: the
(percentage, status) pairs, in firing order.  The per-checkpoint times are
randomized but strictly staged fractions of the target time; they fix only
the firing order, which the run model takes as given. -/
def startCheckpoints : List BotTimer :=
  [.checkpoint 0 "Reading problem",
   .checkpoint 15 "Thinking",
   .checkpoint 30 "Coding solution",
   .checkpoint 50 "Testing locally",
   .checkpoint 70 "Debugging",
   .checkpoint 85 "Final checks",
   .checkpoint 100 "Submitting"]

/-- Body of one fired bot callback, straight from BotPlayer.ts: every body
checks `isStopped` first and returns silently when it is set.  A live
checkpoint updates `progress`, then either enters failSolution (when
`shouldFail` and the failure point is reached: emit the Wrong Answer
progress line and schedule the delayed give-up), or emits its progress
line and, at 100%, enters submitWinningSolution (emit Accepted and
schedule the delayed success).  The delayed completions call `onComplete`,
modelled as the returned `BotCompletionResult` list. -/
def fireBotTimer (bot : BotSim) (s : BotState) (t : BotTimer) :
    BotState × List Event × List BotTimer × List BotCompletionResult :=
  match t with
  | .checkpoint percentage status =>
    if s.isStopped then (s, [], [], [])
    else
      let s1 : BotState := { s with progress := percentage }
      if bot.shouldFail ∧ s1.progress ≥ bot.failurePoint then
        (s1,
         [.opponentProgress (.room bot.matchId) bot.botId
            ("Wrong Answer (" ++ toString bot.failTestsPassed ++ "/10)")
            none (some s1.progress)],
         [.completeFailed bot.failTestsPassed], [])
      else
        let progressEvt := Event.opponentProgress (.room bot.matchId) bot.botId
          status none (some s1.progress)
        if s1.progress ≥ 100 then
          (s1,
           [progressEvt,
            .opponentProgress (.room bot.matchId) bot.botId "Accepted" none (some 100)],
           [.completeSuccess], [])
        else (s1, [progressEvt], [], [])
  | .completeSuccess =>
    if s.isStopped then (s, [], [], [])
    else (s, [], [], [⟨bot.botId, "success", 10, 10⟩])
  | .completeFailed testsPassed =>
    if s.isStopped then (s, [], [], [])
    else (s, [], [], [⟨bot.botId, "failed", testsPassed, 10⟩])

/-- BotPlayer.stop: set `isStopped` and clear the cancellable timeout
array (the clearing is reflected in which timers can still fire; the
nested completion timers are not in that array and may still fire). -/
def stop (s : BotState) : BotState := { s with isStopped := true }

/-- Fire a sequence of pending bot callbacks in order, collecting every
emission and every onComplete invocation.  The sequence is arbitrary: the
claims hold for every subset and order of surviving timers. -/
def runBotTimers (bot : BotSim) : BotState → List BotTimer →
    BotState × List Event × List BotCompletionResult
  | s, [] => (s, [], [])
  | s, t :: ts =>
    let r := fireBotTimer bot s t
    let rest := runBotTimers bot r.1 ts
    (rest.1, r.2.1 ++ rest.2.1, r.2.2.2 ++ rest.2.2)

end BotPlayer

/-! ## Hash decode lemmas -/

theorem natToString_ne_empty (n : Nat) : natToString n ≠ "" := by
  by_cases h0 : n = 0
  · subst h0; decide
  · intro hcon
    have hdat := congrArg String.data hcon
    rw [natToString_data n h0] at hdat
    simp only [List.reverse_eq_nil_iff, List.map_eq_nil_iff] at hdat
    exact (Nat.digits_ne_nil_iff_ne_zero.mpr h0) hdat

theorem jsIntToString_ne_empty (n : Int) : jsIntToString n ≠ "" := by
  unfold jsIntToString
  by_cases hneg : n < 0
  · rw [if_pos hneg]
    intro hcon
    have hd2 := congrArg String.data hcon
    rw [String.data_append] at hd2
    simp at hd2
  · rw [if_neg hneg]
    exact natToString_ne_empty n.natAbs

/-- Inversion of a successful `getMatch` decode: every component of the
returned `MatchState` is determined by the hash fields. -/
theorem decodeMatch_some_inv {h : MatchHash} {m : MatchState}
    (hdec : RedisService.decodeMatch h = some m) :
    h.id ≠ "" ∧
    jsParseInt h.player1_elo = some m.player1.elo ∧
    jsParseInt h.player2_elo = some m.player2.elo ∧
    jsParseInt h.startedAt = some m.startedAt ∧
    m.id = h.id ∧ m.player1.id = h.player1_id ∧
    m.player1.socketId = h.player1_socketId ∧
    m.player1.username = h.player1_username ∧
    m.player2.id = h.player2_id ∧ m.player2.socketId = h.player2_socketId ∧
    m.player2.username = h.player2_username ∧
    m.problemId = h.problemId ∧ m.problemTitle = h.problemTitle ∧
    m.status = h.status ∧
    m.winnerId = (if h.winnerId = "" then none else some h.winnerId) ∧
    ((h.finishedAt = "" ∧ m.finishedAt = none) ∨
      (h.finishedAt ≠ "" ∧ ∃ f, jsParseInt h.finishedAt = some f ∧
        m.finishedAt = some f)) := by
  unfold RedisService.decodeMatch at hdec
  split at hdec
  · exact absurd hdec (by simp)
  · rename_i hid
    split at hdec
    · rename_i e1 e2 t0 fin hp1 hp2 hp3 hp4
      rw [Option.some_inj] at hdec
      subst hdec
      refine ⟨hid, hp1, hp2, hp3, rfl, rfl, rfl, rfl, rfl, rfl, rfl, rfl, rfl,
        rfl, rfl, ?_⟩
      by_cases hfe : h.finishedAt = ""
      · rw [if_pos hfe] at hp4
        rw [Option.some_inj] at hp4
        exact Or.inl ⟨hfe, hp4.symm⟩
      · rw [if_neg hfe, Option.map_eq_some'] at hp4
        obtain ⟨f, hpf, hsf⟩ := hp4
        exact Or.inr ⟨hfe, f, hpf, hsf.symm⟩
    · exact absurd hdec (by simp)

/-- Construction of a successful decode when the `finishedAt` field is
non-empty and parses. -/
theorem decodeMatch_some_of_parses (h : MatchHash) (e1 e2 t0 f : Int)
    (hid : h.id ≠ "") (hp1 : jsParseInt h.player1_elo = some e1)
    (hp2 : jsParseInt h.player2_elo = some e2)
    (hp3 : jsParseInt h.startedAt = some t0)
    (hfne : h.finishedAt ≠ "") (hpf : jsParseInt h.finishedAt = some f) :
    RedisService.decodeMatch h = some
      { id := h.id
        player1 := ⟨h.player1_id, h.player1_socketId, h.player1_username, e1⟩
        player2 := ⟨h.player2_id, h.player2_socketId, h.player2_username, e2⟩
        problemId := h.problemId
        problemTitle := h.problemTitle
        status := h.status
        winnerId := if h.winnerId = "" then none else some h.winnerId
        startedAt := t0
        finishedAt := some f } := by
  unfold RedisService.decodeMatch
  rw [if_neg hid, hp1, hp2, hp3, if_neg hfne, hpf]
  simp only [Option.map_some']

/-- Construction of a successful decode when `finishedAt` is empty. -/
theorem decodeMatch_some_of_parses_noFinish (h : MatchHash) (e1 e2 t0 : Int)
    (hid : h.id ≠ "") (hp1 : jsParseInt h.player1_elo = some e1)
    (hp2 : jsParseInt h.player2_elo = some e2)
    (hp3 : jsParseInt h.startedAt = some t0)
    (hfe : h.finishedAt = "") :
    RedisService.decodeMatch h = some
      { id := h.id
        player1 := ⟨h.player1_id, h.player1_socketId, h.player1_username, e1⟩
        player2 := ⟨h.player2_id, h.player2_socketId, h.player2_username, e2⟩
        problemId := h.problemId
        problemTitle := h.problemTitle
        status := h.status
        winnerId := if h.winnerId = "" then none else some h.winnerId
        startedAt := t0
        finishedAt := none } := by
  unfold RedisService.decodeMatch
  rw [if_neg hid, hp1, hp2, hp3, if_pos hfe]

/-- Decoding the hash written by `encodeMatch` recovers the original state
whenever the state has a non-empty id and null winnerId/finishedAt. -/
theorem decodeMatch_encodeMatch (m : MatchState) (hid : m.id ≠ "")
    (hw : m.winnerId = none) (hf : m.finishedAt = none) :
    RedisService.decodeMatch (RedisService.encodeMatch m) = some m := by
  obtain ⟨mid, p1, p2, pid, ptitle, pstatus, pwin, pstart, pfin⟩ := m
  simp only at hid hw hf
  subst hw
  subst hf
  have hcon := decodeMatch_some_of_parses_noFinish (RedisService.encodeMatch
      ⟨mid, p1, p2, pid, ptitle, pstatus, none, pstart, none⟩)
    p1.elo p2.elo pstart
    (by simpa [RedisService.encodeMatch] using hid)
    (by simp [RedisService.encodeMatch, jsParseInt_jsIntToString])
    (by simp [RedisService.encodeMatch, jsParseInt_jsIntToString])
    (by simp [RedisService.encodeMatch, jsParseInt_jsIntToString])
    (by simp [RedisService.encodeMatch])
  rw [hcon]
  obtain ⟨p1i, p1s, p1u, p1e⟩ := p1
  obtain ⟨p2i, p2s, p2u, p2e⟩ := p2
  simp [RedisService.encodeMatch]

/-! ## Store operation lemmas -/

theorem getMatch_elim {st : RedisStore} {mid : String} {m : MatchState}
    (h : RedisService.getMatch st mid = some m) :
    ∃ hh, lookupAssoc st.matchTable mid = some hh ∧
      RedisService.decodeMatch hh = some m := by
  unfold RedisService.getMatch at h
  split at h
  · exact absurd h (by simp)
  · rename_i hh hl
    exact ⟨hh, hl, h⟩

/-- The hash produced by a successful check-and-set. -/
def finishHash (hh : MatchHash) (w : String) (now : Int) : MatchHash :=
  { hh with status := "finished", winnerId := w, finishedAt := jsIntToString now }

theorem setMatchWinner_active {st : RedisStore} {mid : String} {hh : MatchHash}
    (hl : lookupAssoc st.matchTable mid = some hh) (hact : hh.status = "active")
    (w : String) (now : Int) :
    RedisService.setMatchWinner st mid w now =
      ({ st with matchTable := updateAssoc st.matchTable mid (finishHash hh w now) },
        true) := by
  unfold RedisService.setMatchWinner finishHash
  rw [hl]
  simp [hact]

theorem setMatchWinner_notActive {st : RedisStore} {mid : String} {hh : MatchHash}
    (hl : lookupAssoc st.matchTable mid = some hh) (hact : hh.status ≠ "active")
    (w : String) (now : Int) :
    RedisService.setMatchWinner st mid w now = (st, false) := by
  unfold RedisService.setMatchWinner
  rw [hl]
  simp only [if_neg hact]

theorem setMatchWinner_missing {st : RedisStore} {mid : String}
    (hl : lookupAssoc st.matchTable mid = none) (w : String) (now : Int) :
    RedisService.setMatchWinner st mid w now = (st, false) := by
  unfold RedisService.setMatchWinner
  rw [hl]

/-- After a successful check-and-set, the stored hash is the finished one. -/
theorem lookup_after_setMatchWinner {st : RedisStore} {mid : String} {hh : MatchHash}
    (hl : lookupAssoc st.matchTable mid = some hh) (hact : hh.status = "active")
    (w : String) (now : Int) :
    lookupAssoc (RedisService.setMatchWinner st mid w now).1.matchTable mid =
      some (finishHash hh w now) := by
  rw [setMatchWinner_active hl hact w now]
  exact lookupAssoc_updateAssoc_self st.matchTable mid (finishHash hh w now)

/-! ## Concrete sample data shared by the witnesses -/

/-- An empty store. -/
def emptyStore : RedisStore := ⟨[], [], [], []⟩

/-- A concrete two-player match used by witnesses. -/
def sampleMatch : MatchState :=
  { id := "m1"
    player1 := ⟨"alice", "sockA", "Alice", 1200⟩
    player2 := ⟨"bob", "sockB", "Bob", 1200⟩
    problemId := "p1"
    problemTitle := "Two Sum"
    status := "active"
    winnerId := none
    startedAt := 1700000000000
    finishedAt := none }

/-- A connection predicate under which every socket is live. -/
def allSockets : String → Bool := fun _ => true

/-- The Redis hash of `sampleMatch`, written out field by field so that
concrete runs over it kernel-evaluate. -/
def sampleHash : MatchHash :=
  { id := "m1"
    player1_id := "alice", player1_socketId := "sockA"
    player1_username := "Alice", player1_elo := "1200"
    player2_id := "bob", player2_socketId := "sockB"
    player2_username := "Bob", player2_elo := "1200"
    problemId := "p1", problemTitle := "Two Sum"
    status := "active", winnerId := ""
    startedAt := "1700000000000", finishedAt := "" }

/-- Store holding exactly `sampleMatch` (as `sampleHash`). -/
def sampleStore : RedisStore :=
  { queue := []
    matchTable := [("m1", sampleHash)]
    userMatch := [("alice", "m1"), ("bob", "m1")]
    userSocket := [] }

/-- Concrete queue entries U1..U5 for the FIFO witness. -/
def qEntry (uid sid name : String) : QueueEntry := ⟨uid, sid, name, 1000, 0⟩

def qU1 : QueueEntry := qEntry "u1" "s1" "U1"
def qU2 : QueueEntry := qEntry "u2" "s2" "U2"
def qU3 : QueueEntry := qEntry "u3" "s3" "U3"
def qU4 : QueueEntry := qEntry "u4" "s4" "U4"
def qU5 : QueueEntry := qEntry "u5" "s5" "U5"

/-- Enqueue a list of entries in order (repeated joinQueue calls). -/
def enqueueAll (st : RedisStore) (es : List QueueEntry) : RedisStore :=
  es.foldl (fun s e => (RedisService.enqueue s e).1) st

/-! ## Claims -/

/-- C10: for every MatchState `m` whose winnerId and finishedAt are null,
`createMatch m` followed by `getMatch m.id` returns `m` itself: the nulls
are stored as empty strings and decoded back to `null`, the elo and
startedAt numbers round-trip through their decimal encodings, and status
and the identity fields come back unchanged.  Of the claim's "string
fields are non-empty" hypotheses only `m.id ≠ ""` is actually needed (the
decoder checks only the id field), so this theorem is slightly stronger
than the claim. -/
theorem createMatch_getMatch_roundtrip (st : RedisStore) (m : MatchState)
    (hid : m.id ≠ "") (hw : m.winnerId = none) (hf : m.finishedAt = none) :
    RedisService.getMatch (RedisService.createMatch st m) m.id = some m := by
  unfold RedisService.getMatch RedisService.createMatch
  simp only
  rw [lookupAssoc_updateAssoc_self]
  exact decodeMatch_encodeMatch m hid hw hf

/-- Witness for C10 at a concrete match. -/
theorem createMatch_getMatch_roundtrip_witness :
    sampleMatch.id ≠ "" ∧ sampleMatch.winnerId = none ∧
    sampleMatch.finishedAt = none ∧
    RedisService.getMatch (RedisService.createMatch emptyStore sampleMatch)
      sampleMatch.id = some sampleMatch :=
  ⟨by decide, rfl, rfl,
    createMatch_getMatch_roundtrip emptyStore sampleMatch (by decide) rfl rfl⟩

/-- C8: popTwoPlayers removes and returns the two oldest entries in FIFO
order whenever at least two are queued; with fewer than two it returns
null and the queue contents are unchanged (a solitary popped entry is
pushed back to the head); and after enqueueing U1..U5 in order the first
two calls pair U1 with U2 and then U3 with U4. -/
theorem popTwoPlayers_fifo :
    (∀ (st : RedisStore) (a b : QueueEntry) (rest : List QueueEntry),
      st.queue = a :: b :: rest →
      RedisService.popTwoPlayers st = ({ st with queue := rest }, some (a, b))) ∧
    (∀ st : RedisStore, st.queue.length < 2 →
      RedisService.popTwoPlayers st = (st, none)) ∧
    ((RedisService.popTwoPlayers (enqueueAll emptyStore [qU1, qU2, qU3, qU4, qU5])).2
        = some (qU1, qU2) ∧
      (RedisService.popTwoPlayers
        (RedisService.popTwoPlayers
          (enqueueAll emptyStore [qU1, qU2, qU3, qU4, qU5])).1).2
        = some (qU3, qU4)) := by
  refine ⟨?_, ?_, by decide, by decide⟩
  · intro st a b rest hq
    unfold RedisService.popTwoPlayers
    rw [hq]
  · intro st hlen
    obtain ⟨q, mt, um, us⟩ := st
    simp only at hlen
    unfold RedisService.popTwoPlayers
    match q, hlen with
    | [], _ => rfl
    | [a], _ => rfl
    | a :: b :: rest, hlen =>
      exact absurd hlen (by simp only [List.length_cons]; omega)

/-- Witness for C8: the hypothesised parts instantiated at U1..U5 and at a
one-entry queue. -/
theorem popTwoPlayers_fifo_witness :
    RedisService.popTwoPlayers ⟨[qU1, qU2, qU3, qU4, qU5], [], [], []⟩
      = (⟨[qU3, qU4, qU5], [], [], []⟩, some (qU1, qU2)) ∧
    RedisService.popTwoPlayers ⟨[qU5], [], [], []⟩ = (⟨[qU5], [], [], []⟩, none) :=
  ⟨popTwoPlayers_fifo.1 ⟨[qU1, qU2, qU3, qU4, qU5], [], [], []⟩ qU1 qU2
      [qU3, qU4, qU5] rfl,
    popTwoPlayers_fifo.2.1 ⟨[qU5], [], [], []⟩ (by decide)⟩

/-- A fired bot callback does nothing once `isStopped` is set: every
callback body in BotPlayer.ts checks the flag first. -/
theorem fireBotTimer_stopped (bot : BotPlayer.BotSim) (s : BotPlayer.BotState)
    (t : BotPlayer.BotTimer) (hs : s.isStopped = true) :
    BotPlayer.fireBotTimer bot s t = (s, [], [], []) := by
  cases t <;> simp [BotPlayer.fireBotTimer, hs]

/-- C9: after `stop()` no opponent_progress event is ever emitted for the
bot and `onComplete` is never invoked, for every sequence of timers that
still fires afterwards — in particular the nested delayed callbacks
scheduled inside submitWinningSolution and failSolution, which survive the
cancellation of the `timeouts` array but are guarded by `isStopped`. -/
theorem botPlayer_stop_silences (bot : BotPlayer.BotSim) (s : BotPlayer.BotState)
    (ts : List BotPlayer.BotTimer) :
    BotPlayer.runBotTimers bot (BotPlayer.stop s) ts = (BotPlayer.stop s, [], []) := by
  induction ts with
  | nil => rfl
  | cons t rest ih =>
    unfold BotPlayer.runBotTimers
    rw [fireBotTimer_stopped bot (BotPlayer.stop s) t rfl]
    simp [ih]

/-- The winner-side rating read by handlePotentialWin:
`user.id === match.player1.id ? match.player1.elo : match.player2.elo`. -/
def winnerEloOf (m : MatchState) (uid : String) : Int :=
  if uid = m.player1.id then m.player1.elo else m.player2.elo

/-- The loser-side rating read by handlePotentialWin. -/
def loserEloOf (m : MatchState) (uid : String) : Int :=
  if uid = m.player1.id then m.player2.elo else m.player1.elo

/-- The socket id of the losing side as looked up by handlePotentialWin. -/
def loserSocketOf (m : MatchState) (uid : String) : String :=
  if m.player1.id = uid then m.player2.socketId else m.player1.socketId

/-- Full evaluation of handlePotentialWin when the caller wins the race:
the check-and-set succeeds, the solved broadcast, the winner's game_over,
and (when the loser's socket is live) the loser's game_over are emitted,
and the delayed cleanup is registered. -/
theorem handlePotentialWin_won {st : RedisStore} {m : MatchState} {hh : MatchHash}
    (hl : lookupAssoc st.matchTable m.id = some hh)
    (hdec : RedisService.decodeMatch hh = some m) (hact : m.status = "active")
    (sockets : String → Bool) (sockA uA : String) (pA tA n1 : Int) :
    GameService.handlePotentialWin st sockets sockA uA m pA tA n1 =
      { store :=
          { st with matchTable := updateAssoc st.matchTable m.id (finishHash hh uA n1) }
        events := Event.opponentProgress (.room m.id) uA "✅ Solved!"
            (some (toString pA ++ "/" ++ toString tA)) none ::
          Event.gameOver (.socket sockA) (some uA) "You solved it first!"
            (some (winnerEloOf m uA +
              GameService.calculateEloChange (winnerEloOf m uA) (loserEloOf m uA))) ::
          (if sockets (loserSocketOf m uA) then
            [Event.gameOver (.socket (loserSocketOf m uA)) (some uA)
              "Opponent solved first"
              (some (loserEloOf m uA -
                GameService.calculateEloChange (winnerEloOf m uA) (loserEloOf m uA)))]
          else [])
        timers := [.cleanup m.id 60000] } := by
  obtain ⟨hid, hp1, hp2, hp3, _hmid, _h1i, _h1s, _h1u, _h2i, _h2s, _h2u, _hpid,
    _hpt, hstat, _hwin, _hfin⟩ := decodeMatch_some_inv hdec
  have hhact : hh.status = "active" := by rw [← hstat]; exact hact
  have hsw1 := setMatchWinner_active hl hhact uA n1
  have hlu1 : lookupAssoc
      ({ st with matchTable := updateAssoc st.matchTable m.id (finishHash hh uA n1) }
        : RedisStore).matchTable m.id = some (finishHash hh uA n1) :=
    lookupAssoc_updateAssoc_self st.matchTable m.id (finishHash hh uA n1)
  have hdec2 := decodeMatch_some_of_parses (finishHash hh uA n1)
    m.player1.elo m.player2.elo m.startedAt n1 hid hp1 hp2 hp3
    (jsIntToString_ne_empty n1) (jsParseInt_jsIntToString n1)
  have hgetDec : RedisService.getMatch
      ({ st with matchTable := updateAssoc st.matchTable m.id (finishHash hh uA n1) }
        : RedisStore) m.id = RedisService.decodeMatch (finishHash hh uA n1) := by
    unfold RedisService.getMatch
    rw [hlu1]
  have hget2 := hgetDec.trans hdec2
  simp only [GameService.handlePotentialWin, hsw1, Bool.true_eq_false, reduceIte,
    hget2, winnerEloOf, loserEloOf, loserSocketOf]

/-- Evaluation of handlePotentialWin when the match hash is no longer
active: the check-and-set fails, nothing changes, and only the
MATCH_FINISHED error is sent to the submitter. -/
theorem handlePotentialWin_lost {st : RedisStore} {mid : String} {hh : MatchHash}
    (hl : lookupAssoc st.matchTable mid = some hh) (hact : hh.status ≠ "active")
    (sockets : String → Bool) (sockB uB : String) (m : MatchState) (pB tB n2 : Int)
    (hmid : m.id = mid) :
    GameService.handlePotentialWin st sockets sockB uB m pB tB n2 =
      { store := st
        events := [Event.errorEvt (.socket sockB) "Match already finished"
            (some "MATCH_FINISHED")]
        timers := [] } := by
  subst hmid
  have hsw := setMatchWinner_notActive hl hact uB n2
  simp only [GameService.handlePotentialWin, hsw, reduceIte]

/-- C1: the active-to-finished transition happens at most once.  First,
after any successful setMatchWinner every further setMatchWinner call on
the same match returns false and leaves the store untouched.  Second, for
two accepted submissions handled in sequence on an active match, the first
caller's check-and-set returns true and its handler emits the winner
game_over, while the second caller's handler emits exactly the
"Match already finished" error with code MATCH_FINISHED to its own
submitter, registers nothing, and leaves the store exactly as the first
caller left it. -/
theorem setMatchWinner_at_most_once :
    (∀ (st : RedisStore) (mid w1 w2 : String) (n1 n2 : Int),
      (RedisService.setMatchWinner st mid w1 n1).2 = true →
      RedisService.setMatchWinner (RedisService.setMatchWinner st mid w1 n1).1 mid w2 n2
        = ((RedisService.setMatchWinner st mid w1 n1).1, false)) ∧
    (∀ (st : RedisStore) (sockets : String → Bool) (sockA sockB uA uB : String)
      (m : MatchState) (pA tA pB tB n1 n2 : Int),
      RedisService.getMatch st m.id = some m → m.status = "active" →
      (RedisService.setMatchWinner st m.id uA n1).2 = true ∧
      Event.gameOver (.socket sockA) (some uA) "You solved it first!"
          (some (winnerEloOf m uA +
            GameService.calculateEloChange (winnerEloOf m uA) (loserEloOf m uA)))
        ∈ (GameService.handlePotentialWin st sockets sockA uA m pA tA n1).events ∧
      GameService.handlePotentialWin
          (GameService.handlePotentialWin st sockets sockA uA m pA tA n1).store
          sockets sockB uB m pB tB n2
        = { store := (GameService.handlePotentialWin st sockets sockA uA m pA tA n1).store
            events := [Event.errorEvt (.socket sockB) "Match already finished"
                (some "MATCH_FINISHED")]
            timers := [] }) := by
  constructor
  · intro st mid w1 w2 n1 n2 hw1
    cases hl : lookupAssoc st.matchTable mid with
    | none => rw [setMatchWinner_missing hl w1 n1] at hw1; exact absurd hw1 (by simp)
    | some hh =>
      by_cases hact : hh.status = "active"
      · have hs1 := setMatchWinner_active hl hact w1 n1
        rw [hs1]
        have hlu : lookupAssoc
            ({ st with matchTable := updateAssoc st.matchTable mid (finishHash hh w1 n1) }
              : RedisStore).matchTable mid = some (finishHash hh w1 n1) :=
          lookupAssoc_updateAssoc_self st.matchTable mid (finishHash hh w1 n1)
        exact setMatchWinner_notActive hlu (by simp [finishHash]) w2 n2
      · rw [setMatchWinner_notActive hl hact w1 n1] at hw1
        exact absurd hw1 (by simp)
  · intro st sockets sockA sockB uA uB m pA tA pB tB n1 n2 hm hact
    obtain ⟨hh, hl, hdec⟩ := getMatch_elim hm
    obtain ⟨hid, hp1, hp2, hp3, _hmid, _h1i, _h1s, _h1u, _h2i, _h2s, _h2u, _hpid,
      _hpt, hstat, _hwin, _hfin⟩ := decodeMatch_some_inv hdec
    have hhact : hh.status = "active" := by rw [← hstat]; exact hact
    have hr1 := handlePotentialWin_won hl hdec hact sockets sockA uA pA tA n1
    refine ⟨by rw [setMatchWinner_active hl hhact uA n1], ?_, ?_⟩
    · rw [hr1]
      exact List.mem_cons_of_mem _ (List.mem_cons_self _ _)
    · rw [hr1]
      have hlu : lookupAssoc
          ({ st with matchTable := updateAssoc st.matchTable m.id (finishHash hh uA n1) }
            : RedisStore).matchTable m.id = some (finishHash hh uA n1) :=
        lookupAssoc_updateAssoc_self st.matchTable m.id (finishHash hh uA n1)
      exact handlePotentialWin_lost hlu (by simp [finishHash]) sockets sockB uB m
        pB tB n2 rfl

/-- Witness for C1: two concrete accepted submissions on the sample match;
the second receives exactly the MATCH_FINISHED error. -/
theorem setMatchWinner_at_most_once_witness :
    RedisService.getMatch sampleStore sampleMatch.id = some sampleMatch ∧
    sampleMatch.status = "active" ∧
    (RedisService.setMatchWinner sampleStore sampleMatch.id "alice" 111).2 = true ∧
    GameService.handlePotentialWin
        (GameService.handlePotentialWin sampleStore allSockets "sockA" "alice"
          sampleMatch 10 10 111).store
        allSockets "sockB" "bob" sampleMatch 10 10 222
      = { store := (GameService.handlePotentialWin sampleStore allSockets "sockA"
            "alice" sampleMatch 10 10 111).store
          events := [Event.errorEvt (.socket "sockB") "Match already finished"
              (some "MATCH_FINISHED")]
          timers := [] } := by
  have h := setMatchWinner_at_most_once.2 sampleStore allSockets "sockA" "sockB"
    "alice" "bob" sampleMatch 10 10 10 10 111 222 (by decide) rfl
  exact ⟨by decide, rfl, h.1, h.2.2⟩

/-- C2: the rating delta is exactly
`round(32 * (1 - 1/(1 + 10^((loserElo - winnerElo)/400))))` (the spec's
formula, restated here literally); on a won race the winner's game_over
carries `newElo = winnerElo + delta` and the loser's (when its socket is
live) carries `newElo = loserElo - delta`; and for two 1200-rated players
the delta is 16, so the new ratings are 1216 and 1184. -/
theorem elo_delta_and_game_over :
    (∀ w l : Int, GameService.calculateEloChange w l =
      round ((32 : ℝ) * (1 - 1 / (1 + (10 : ℝ) ^ (((l : ℝ) - (w : ℝ)) / 400))))) ∧
    (∀ (st : RedisStore) (sockets : String → Bool) (sockA uA : String)
      (m : MatchState) (pA tA n1 : Int),
      RedisService.getMatch st m.id = some m → m.status = "active" →
      sockets (loserSocketOf m uA) = true →
      Event.gameOver (.socket sockA) (some uA) "You solved it first!"
          (some (winnerEloOf m uA +
            GameService.calculateEloChange (winnerEloOf m uA) (loserEloOf m uA)))
        ∈ (GameService.handlePotentialWin st sockets sockA uA m pA tA n1).events ∧
      Event.gameOver (.socket (loserSocketOf m uA)) (some uA) "Opponent solved first"
          (some (loserEloOf m uA -
            GameService.calculateEloChange (winnerEloOf m uA) (loserEloOf m uA)))
        ∈ (GameService.handlePotentialWin st sockets sockA uA m pA tA n1).events) ∧
    (GameService.calculateEloChange 1200 1200 = 16 ∧
      (1200 : Int) + GameService.calculateEloChange 1200 1200 = 1216 ∧
      (1200 : Int) - GameService.calculateEloChange 1200 1200 = 1184) := by
  have h16 : GameService.calculateEloChange 1200 1200 = 16 := by
    unfold GameService.calculateEloChange
    have h0 : (((1200 : Int) : ℝ) - ((1200 : Int) : ℝ)) / 400 = 0 := by norm_num
    rw [h0, Real.rpow_zero]
    show round ((32 : ℝ) * (1 - 1 / (1 + 1))) = 16
    rw [show (32 : ℝ) * (1 - 1 / (1 + 1)) = ((16 : ℤ) : ℝ) by norm_num]
    rw [round_intCast]
  refine ⟨fun w l => rfl, ?_, h16, by rw [h16]; norm_num, by rw [h16]; norm_num⟩
  intro st sockets sockA uA m pA tA n1 hm hact hsock
  obtain ⟨hh, hl, hdec⟩ := getMatch_elim hm
  have hr1 := handlePotentialWin_won hl hdec hact sockets sockA uA pA tA n1
  rw [hr1]
  simp only [hsock, if_pos rfl]
  constructor
  · exact List.mem_cons_of_mem _ (List.mem_cons_self _ _)
  · exact List.mem_cons_of_mem _ (List.mem_cons_of_mem _ (List.mem_cons_self _ _))

/-- Witness for C2 at the sample match: both players rated 1200, the
winner event carrying 1200 + delta, and delta = 16. -/
theorem elo_delta_and_game_over_witness :
    RedisService.getMatch sampleStore sampleMatch.id = some sampleMatch ∧
    sampleMatch.status = "active" ∧
    allSockets (loserSocketOf sampleMatch "alice") = true ∧
    Event.gameOver (.socket "sockA") (some "alice") "You solved it first!"
        (some (winnerEloOf sampleMatch "alice" +
          GameService.calculateEloChange (winnerEloOf sampleMatch "alice")
            (loserEloOf sampleMatch "alice")))
      ∈ (GameService.handlePotentialWin sampleStore allSockets "sockA" "alice"
          sampleMatch 10 10 111).events ∧
    GameService.calculateEloChange 1200 1200 = 16 := by
  have h := elo_delta_and_game_over.2.1 sampleStore allSockets "sockA" "alice"
    sampleMatch 10 10 111 (by decide) rfl rfl
  exact ⟨by decide, rfl, rfl, h.1, elo_delta_and_game_over.2.2.1⟩

/-! ## Field-preservation lemmas -/

theorem dequeue_matchTable (st : RedisStore) (uid : String) :
    (RedisService.dequeue st uid).1.matchTable = st.matchTable := by
  unfold RedisService.dequeue
  split <;> rfl

theorem dequeue_userMatch (st : RedisStore) (uid : String) :
    (RedisService.dequeue st uid).1.userMatch = st.userMatch := by
  unfold RedisService.dequeue
  split <;> rfl

theorem deleteUserSocket_matchTable (st : RedisStore) (uid : String) :
    (RedisService.deleteUserSocket st uid).matchTable = st.matchTable := rfl

theorem deleteUserSocket_userMatch (st : RedisStore) (uid : String) :
    (RedisService.deleteUserSocket st uid).userMatch = st.userMatch := rfl

theorem deleteUserSocket_queue (st : RedisStore) (uid : String) :
    (RedisService.deleteUserSocket st uid).queue = st.queue := rfl

theorem getMatch_ext {st1 st2 : RedisStore} (mid : String)
    (h : st1.matchTable = st2.matchTable) :
    RedisService.getMatch st1 mid = RedisService.getMatch st2 mid := by
  unfold RedisService.getMatch
  rw [h]

/-- The winner chosen by handleDisconnect / handleForfeit: the side other
than the given user. -/
def otherPlayerId (m : MatchState) (uid : String) : String :=
  if m.player1.id = uid then m.player2.id else m.player1.id

/-- Evaluation of handleDisconnect when the user's socket data names an
active match: dequeue, award the other side through the check-and-set,
emit the room game_over, drop the socket pointer. -/
theorem handleDisconnect_active {st : RedisStore} {m : MatchState} {hh : MatchHash}
    (uid : String) (hl : lookupAssoc st.matchTable m.id = some hh)
    (hdec : RedisService.decodeMatch hh = some m) (hact : m.status = "active")
    (now : Int) :
    MatchmakingService.handleDisconnect st uid (some m.id) now =
      (RedisService.deleteUserSocket
        ({ (RedisService.dequeue st uid).1 with
            matchTable := updateAssoc (RedisService.dequeue st uid).1.matchTable m.id
              (finishHash hh (otherPlayerId m uid) now) })
        uid,
       [Event.gameOver (.room m.id) (some (otherPlayerId m uid))
          "Opponent disconnected" none]) := by
  obtain ⟨_, _, _, _, _, _, _, _, _, _, _, _, _, hstat, _, _⟩ := decodeMatch_some_inv hdec
  have hhact : hh.status = "active" := by rw [← hstat]; exact hact
  have hm1 : RedisService.getMatch (RedisService.dequeue st uid).1 m.id = some m := by
    rw [getMatch_ext m.id (dequeue_matchTable st uid)]
    unfold RedisService.getMatch
    rw [hl]
    exact hdec
  have hl1 : lookupAssoc (RedisService.dequeue st uid).1.matchTable m.id = some hh := by
    rw [dequeue_matchTable st uid]
    exact hl
  have hsw := setMatchWinner_active hl1 hhact (otherPlayerId m uid) now
  simp only [MatchmakingService.handleDisconnect, hm1, hact, reduceIte]
  rw [show (if m.player1.id = uid then m.player2.id else m.player1.id)
      = otherPlayerId m uid from rfl, hsw]
  simp only [reduceIte]

/-- Evaluation of handleDisconnect when the named match is no longer
active: only the dequeue and the socket-pointer cleanup happen. -/
theorem handleDisconnect_inactive {st : RedisStore} {mid : String} {m : MatchState}
    {hh : MatchHash} (uid : String) (hl : lookupAssoc st.matchTable mid = some hh)
    (hdec : RedisService.decodeMatch hh = some m) (hnact : m.status ≠ "active")
    (now : Int) :
    MatchmakingService.handleDisconnect st uid (some mid) now =
      (RedisService.deleteUserSocket (RedisService.dequeue st uid).1 uid, []) := by
  have hm1 : RedisService.getMatch (RedisService.dequeue st uid).1 mid = some m := by
    rw [getMatch_ext mid (dequeue_matchTable st uid)]
    unfold RedisService.getMatch
    rw [hl]
    exact hdec
  simp only [MatchmakingService.handleDisconnect, hm1, if_neg hnact]

/-- C5: a disconnect of a participant in an active match awards the win
to the remaining side through the same atomic check-and-set and emits the
room game_over naming that side with reason "Opponent disconnected"
exactly once: a second run of the disconnect handler for the same match
emits nothing.  A disconnect of a user with no match association only
dequeues (and drops the socket pointer): match table and user-to-match
pointers are untouched and no event is emitted. -/
theorem disconnect_forfeit_once :
    (∀ (st : RedisStore) (uid : String) (m : MatchState) (now1 now2 : Int),
      RedisService.getMatch st m.id = some m → m.status = "active" →
      (MatchmakingService.handleDisconnect st uid (some m.id) now1).2 =
        [Event.gameOver (.room m.id) (some (otherPlayerId m uid))
          "Opponent disconnected" none] ∧
      (MatchmakingService.handleDisconnect
          (MatchmakingService.handleDisconnect st uid (some m.id) now1).1
          uid (some m.id) now2).2 = []) ∧
    (∀ (st : RedisStore) (uid : String) (now : Int),
      RedisService.getUserMatchId st uid = none →
      MatchmakingService.handleDisconnect st uid none now =
        (RedisService.deleteUserSocket (RedisService.dequeue st uid).1 uid, []) ∧
      (MatchmakingService.handleDisconnect st uid none now).1.matchTable
        = st.matchTable ∧
      (MatchmakingService.handleDisconnect st uid none now).1.userMatch
        = st.userMatch) := by
  constructor
  · intro st uid m now1 now2 hm hact
    obtain ⟨hh, hl, hdec⟩ := getMatch_elim hm
    obtain ⟨hid, hp1, hp2, hp3, _, _, _, _, _, _, _, _, _, _, _, _⟩ :=
      decodeMatch_some_inv hdec
    have h1 := handleDisconnect_active uid hl hdec hact now1
    refine ⟨by rw [h1], ?_⟩
    rw [h1]
    have hl3 : lookupAssoc
        (RedisService.deleteUserSocket
          ({ (RedisService.dequeue st uid).1 with
              matchTable := updateAssoc (RedisService.dequeue st uid).1.matchTable m.id
                (finishHash hh (otherPlayerId m uid) now1) })
          uid).matchTable m.id
        = some (finishHash hh (otherPlayerId m uid) now1) :=
      lookupAssoc_updateAssoc_self (RedisService.dequeue st uid).1.matchTable m.id _
    have hdec3 := decodeMatch_some_of_parses
      (finishHash hh (otherPlayerId m uid) now1)
      m.player1.elo m.player2.elo m.startedAt now1 hid hp1 hp2 hp3
      (jsIntToString_ne_empty now1) (jsParseInt_jsIntToString now1)
    rw [handleDisconnect_inactive uid hl3 hdec3 (by simp [finishHash]) now2]
  · intro st uid now hnone
    have hn1 : RedisService.getUserMatchId (RedisService.dequeue st uid).1 uid
        = none := by
      unfold RedisService.getUserMatchId
      rw [dequeue_userMatch]
      exact hnone
    have hres : MatchmakingService.handleDisconnect st uid none now =
        (RedisService.deleteUserSocket (RedisService.dequeue st uid).1 uid, []) := by
      simp only [MatchmakingService.handleDisconnect, hn1]
    refine ⟨hres, ?_, ?_⟩
    · rw [hres]
      rw [deleteUserSocket_matchTable, dequeue_matchTable]
    · rw [hres]
      rw [deleteUserSocket_userMatch, dequeue_userMatch]

/-- Witness for C5: Bob disconnects from the sample match (Alice wins,
once; a duplicate disconnect emits nothing) and a queued-only user's
disconnect touches no match state. -/
theorem disconnect_forfeit_once_witness :
    RedisService.getMatch sampleStore sampleMatch.id = some sampleMatch ∧
    sampleMatch.status = "active" ∧
    (MatchmakingService.handleDisconnect sampleStore "bob"
        (some sampleMatch.id) 333).2 =
      [Event.gameOver (.room sampleMatch.id) (some (otherPlayerId sampleMatch "bob"))
        "Opponent disconnected" none] ∧
    (MatchmakingService.handleDisconnect
        (MatchmakingService.handleDisconnect sampleStore "bob"
          (some sampleMatch.id) 333).1
        "bob" (some sampleMatch.id) 444).2 = [] ∧
    RedisService.getUserMatchId sampleStore "zoe" = none ∧
    MatchmakingService.handleDisconnect sampleStore "zoe" none 333 =
      (RedisService.deleteUserSocket (RedisService.dequeue sampleStore "zoe").1 "zoe",
        []) := by
  have ha := disconnect_forfeit_once.1 sampleStore "bob" sampleMatch 333 444
    (by decide) rfl
  have hb := disconnect_forfeit_once.2 sampleStore "zoe" 333 (by decide)
  exact ⟨by decide, rfl, ha.1, ha.2, by decide, hb.1⟩

/-! ## C7: submit / forfeit outside an active match -/

/-- A sample problem with one visible and one hidden test case. -/
def sampleProblem : Problem :=
  { id := "p1"
    title := "Two Sum"
    description := "Find two numbers adding to the target."
    difficulty := "easy"
    testCases := [⟨"1 2", "3", false⟩, ⟨"100 200", "300", true⟩] }

/-- Problem lookup collaborator knowing exactly `sampleProblem`. -/
def sampleProblems : String → Option Problem :=
  fun pid => if pid = "p1" then some sampleProblem else none

/-- The sample hash after the match has finished. -/
def sampleHashFinished : MatchHash :=
  { sampleHash with status := "finished", winnerId := "alice",
                    finishedAt := "1700000000500" }

/-- Store holding the finished sample match. -/
def finishedStore : RedisStore :=
  { sampleStore with matchTable := [("m1", sampleHashFinished)] }

/-- The decoded form of `sampleHashFinished`. -/
def sampleMatchFinished : MatchState :=
  { sampleMatch with status := "finished", winnerId := some "alice",
                     finishedAt := some 1700000000500 }

/-- Counterexample to C7 as stated: forfeiting with no current match, or on
a finished match, is completely silent — no error event is emitted, while
the claim requires an informative response in every such case.  (State is
indeed left unchanged.) -/
theorem forfeit_silent_counterexample :
    GameService.handleForfeit emptyStore allSockets "sockB" "bob" none 555
      = { store := emptyStore, events := [], timers := [] } ∧
    GameService.handleForfeit finishedStore allSockets "sockB" "bob" (some "m1") 555
      = { store := finishedStore, events := [], timers := [] } := by
  constructor
  · rfl
  · decide

/-- C7 (amended): submitting with no current match, a missing match, or a
non-active match leaves the store unchanged, registers nothing, and sends
exactly one error event with an explanatory code (NOT_IN_MATCH,
MATCH_NOT_FOUND, MATCH_NOT_ACTIVE); forfeiting in the same situations also
leaves all state unchanged but responds with silence, not an error
event. -/
theorem submission_forfeit_guards :
    (∀ (st : RedisStore) (sockets : String → Bool) (sid uid : String)
      (problems : String → Option Problem) (judge : Except String SubmissionResult)
      (now : Int),
      GameService.handleSubmission st sockets sid uid none problems judge now =
        { store := st
          events := [Event.errorEvt (.socket sid) "You are not in a match"
              (some "NOT_IN_MATCH")]
          timers := [] }) ∧
    (∀ (st : RedisStore) (sockets : String → Bool) (sid uid mid : String)
      (problems : String → Option Problem) (judge : Except String SubmissionResult)
      (now : Int), RedisService.getMatch st mid = none →
      GameService.handleSubmission st sockets sid uid (some mid) problems judge now =
        { store := st
          events := [Event.errorEvt (.socket sid) "Match not found"
              (some "MATCH_NOT_FOUND")]
          timers := [] }) ∧
    (∀ (st : RedisStore) (sockets : String → Bool) (sid uid mid : String)
      (m : MatchState) (problems : String → Option Problem)
      (judge : Except String SubmissionResult) (now : Int),
      RedisService.getMatch st mid = some m → m.status ≠ "active" →
      GameService.handleSubmission st sockets sid uid (some mid) problems judge now =
        { store := st
          events := [Event.errorEvt (.socket sid) "Match is not active"
              (some "MATCH_NOT_ACTIVE")]
          timers := [] }) ∧
    (∀ (st : RedisStore) (sockets : String → Bool) (sid uid : String) (now : Int),
      GameService.handleForfeit st sockets sid uid none now =
        { store := st, events := [], timers := [] }) ∧
    (∀ (st : RedisStore) (sockets : String → Bool) (sid uid mid : String)
      (now : Int), RedisService.getMatch st mid = none →
      GameService.handleForfeit st sockets sid uid (some mid) now =
        { store := st, events := [], timers := [] }) ∧
    (∀ (st : RedisStore) (sockets : String → Bool) (sid uid mid : String)
      (m : MatchState) (now : Int),
      RedisService.getMatch st mid = some m → m.status ≠ "active" →
      GameService.handleForfeit st sockets sid uid (some mid) now =
        { store := st, events := [], timers := [] }) := by
  refine ⟨fun st sockets sid uid problems judge now => rfl, ?_, ?_,
    fun st sockets sid uid now => rfl, ?_, ?_⟩
  · intro st sockets sid uid mid problems judge now hgm
    simp only [GameService.handleSubmission, hgm]
  · intro st sockets sid uid mid m problems judge now hgm hnact
    simp only [GameService.handleSubmission, hgm, if_pos hnact]
  · intro st sockets sid uid mid now hgm
    simp only [GameService.handleForfeit, hgm]
  · intro st sockets sid uid mid m now hgm hnact
    simp only [GameService.handleForfeit, hgm, if_pos hnact]

/-- Witness for C7 at concrete inputs: all three submission guards fire on
the right store, and the forfeit guards are silent no-ops. -/
theorem submission_forfeit_guards_witness :
    RedisService.getMatch emptyStore "nope" = none ∧
    RedisService.getMatch finishedStore "m1" = some sampleMatchFinished ∧
    GameService.handleSubmission emptyStore allSockets "sockB" "bob" (some "nope")
        sampleProblems (Except.ok ⟨"accepted", 2, 2⟩) 555 =
      { store := emptyStore
        events := [Event.errorEvt (.socket "sockB") "Match not found"
            (some "MATCH_NOT_FOUND")]
        timers := [] } ∧
    GameService.handleSubmission finishedStore allSockets "sockB" "bob" (some "m1")
        sampleProblems (Except.ok ⟨"accepted", 2, 2⟩) 555 =
      { store := finishedStore
        events := [Event.errorEvt (.socket "sockB") "Match is not active"
            (some "MATCH_NOT_ACTIVE")]
        timers := [] } ∧
    GameService.handleForfeit finishedStore allSockets "sockB" "bob" (some "m1") 555
      = { store := finishedStore, events := [], timers := [] } := by
  refine ⟨by decide, by decide, ?_, ?_, ?_⟩
  · exact submission_forfeit_guards.2.1 emptyStore allSockets "sockB" "bob" "nope"
      sampleProblems (Except.ok ⟨"accepted", 2, 2⟩) 555 (by decide)
  · exact submission_forfeit_guards.2.2.1 finishedStore allSockets "sockB" "bob" "m1"
      sampleMatchFinished sampleProblems (Except.ok ⟨"accepted", 2, 2⟩) 555
      (by decide) (by decide)
  · exact submission_forfeit_guards.2.2.2.2.2 finishedStore allSockets "sockB" "bob"
      "m1" sampleMatchFinished 555 (by decide) (by decide)

/-! ## C6: rejoin validation -/

/-- Counterexample to C6 as stated: on a store whose match exists, is
active, and lists the requester as participant, a rejoin can still yield
an error rather than match_found — when the problem data is missing the
client gets PROBLEM_NOT_FOUND, a code outside the claim's enumeration, so
the claimed "if and only if" fails. -/
theorem rejoin_problem_missing_counterexample :
    RedisService.getMatch sampleStore "m1" = some sampleMatch ∧
    sampleMatch.status = "active" ∧
    sampleMatch.player1.id = "alice" ∧
    (SocketServer.handleRejoinMatch sampleStore "alice" "sockA2" "m1"
        (fun _ => none)).2 =
      [Event.errorEvt (.socket "sockA2") "Problem data not found"
        (some "PROBLEM_NOT_FOUND")] := by
  refine ⟨by decide, rfl, rfl, by decide⟩

/-- C6 (amended): a rejoin request re-emits the match_found payload iff
the match record exists, is active, the requester is one of the two
participants, and the problem data is found; in every other case the
client receives exactly one error event whose code is MATCH_NOT_FOUND,
NOT_PARTICIPANT, MATCH_ENDED or PROBLEM_NOT_FOUND — never a stale
match_found payload. -/
theorem rejoin_validation (st : RedisStore) (uid sid mid : String)
    (problems : String → Option Problem) :
    ((∃ p, Event.matchFound (.socket sid) p
        ∈ (SocketServer.handleRejoinMatch st uid sid mid problems).2) ↔
      (∃ m, RedisService.getMatch st mid = some m ∧ m.status = "active" ∧
        (m.player1.id = uid ∨ m.player2.id = uid) ∧
        (problems m.problemId).isSome = true)) ∧
    ((¬∃ m, RedisService.getMatch st mid = some m ∧ m.status = "active" ∧
        (m.player1.id = uid ∨ m.player2.id = uid) ∧
        (problems m.problemId).isSome = true) →
      ∃ msg c, (SocketServer.handleRejoinMatch st uid sid mid problems).2
          = [Event.errorEvt (.socket sid) msg (some c)] ∧
        (c = "MATCH_NOT_FOUND" ∨ c = "NOT_PARTICIPANT" ∨ c = "MATCH_ENDED" ∨
          c = "PROBLEM_NOT_FOUND")) := by
  cases hgm : RedisService.getMatch st mid with
  | none =>
    have hev : (SocketServer.handleRejoinMatch st uid sid mid problems).2 =
        [Event.errorEvt (.socket sid) "Match not found or has ended"
          (some "MATCH_NOT_FOUND")] := by
      simp only [SocketServer.handleRejoinMatch, hgm]
    constructor
    · rw [hev]
      constructor
      · rintro ⟨p, hp⟩
        simp at hp
      · rintro ⟨m2, hm2, -⟩
        exact absurd hm2 (by simp)
    · intro _
      exact ⟨_, "MATCH_NOT_FOUND", hev, Or.inl rfl⟩
  | some m =>
    have hsome : ∀ m2 : MatchState, some m = some m2 → m2 = m :=
      fun m2 h => (Option.some_inj.mp h).symm
    by_cases hpart : m.player1.id = uid ∨ m.player2.id = uid
    · have hcond : (!(m.player1.id == uid) && !(m.player2.id == uid)) = false := by
        rcases hpart with h | h <;> simp [h]
      by_cases hact : m.status = "active"
      · cases hprob : problems m.problemId with
        | none =>
          have hev : (SocketServer.handleRejoinMatch st uid sid mid problems).2 =
              [Event.errorEvt (.socket sid) "Problem data not found"
                (some "PROBLEM_NOT_FOUND")] := by
            simp only [SocketServer.handleRejoinMatch, hgm, hcond,
              Bool.false_eq_true, reduceIte, hact, hprob]
            simp
          constructor
          · rw [hev]
            constructor
            · rintro ⟨p, hp⟩
              simp at hp
            · rintro ⟨m2, hm2, -, -, hps⟩
              rw [hsome m2 hm2, hprob] at hps
              exact absurd hps (by simp)
          · intro _
            exact ⟨_, "PROBLEM_NOT_FOUND", hev, Or.inr (Or.inr (Or.inr rfl))⟩
        | some p =>
          have hevx : ∃ payload,
              (SocketServer.handleRejoinMatch st uid sid mid problems).2 =
                [Event.matchFound (.socket sid) payload] := by
            simp only [SocketServer.handleRejoinMatch, hgm, hcond,
              Bool.false_eq_true, reduceIte, hact, hprob]
            exact ⟨_, rfl⟩
          obtain ⟨payload, hev⟩ := hevx
          constructor
          · rw [hev]
            constructor
            · intro _
              exact ⟨m, rfl, hact, hpart, by rw [hprob]; rfl⟩
            · intro _
              exact ⟨payload, List.mem_singleton.mpr rfl⟩
          · intro hn
            exact absurd ⟨m, rfl, hact, hpart, by rw [hprob]; rfl⟩ hn
      · have hev : (SocketServer.handleRejoinMatch st uid sid mid problems).2 =
            [Event.errorEvt (.socket sid)
              ("Match has ended (status: " ++ m.status ++ ")")
              (some "MATCH_ENDED")] := by
          simp only [SocketServer.handleRejoinMatch, hgm, hcond,
            Bool.false_eq_true, reduceIte, if_pos hact]
        constructor
        · rw [hev]
          constructor
          · rintro ⟨p, hp⟩
            simp at hp
          · rintro ⟨m2, hm2, hact2, -⟩
            rw [hsome m2 hm2] at hact2
            exact (hact hact2).elim
        · intro _
          exact ⟨_, "MATCH_ENDED", hev, Or.inr (Or.inr (Or.inl rfl))⟩
    · push_neg at hpart
      obtain ⟨hp1, hp2⟩ := hpart
      have hcond : (!(m.player1.id == uid) && !(m.player2.id == uid)) = true := by
        simp [hp1, hp2]
      have hev : (SocketServer.handleRejoinMatch st uid sid mid problems).2 =
          [Event.errorEvt (.socket sid) "You are not a participant in this match"
            (some "NOT_PARTICIPANT")] := by
        simp only [SocketServer.handleRejoinMatch, hgm, hcond, reduceIte]
      constructor
      · rw [hev]
        constructor
        · rintro ⟨p, hp⟩
          simp at hp
        · rintro ⟨m2, hm2, -, hpart2, -⟩
          rw [hsome m2 hm2] at hpart2
          rcases hpart2 with h | h
          · exact (hp1 h).elim
          · exact (hp2 h).elim
      · intro _
        exact ⟨_, "NOT_PARTICIPANT", hev, Or.inr (Or.inl rfl)⟩

/-- Witness for C6: a participant rejoin on the active sample match gets a
match_found payload; a non-participant gets exactly the NOT_PARTICIPANT
error. -/
theorem rejoin_validation_witness :
    (∃ p, Event.matchFound (.socket "sockA2") p
      ∈ (SocketServer.handleRejoinMatch sampleStore "alice" "sockA2" "m1"
          sampleProblems).2) ∧
    (∃ msg c, (SocketServer.handleRejoinMatch sampleStore "zoe" "sockZ" "m1"
          sampleProblems).2
        = [Event.errorEvt (.socket "sockZ") msg (some c)] ∧
      (c = "MATCH_NOT_FOUND" ∨ c = "NOT_PARTICIPANT" ∨ c = "MATCH_ENDED" ∨
        c = "PROBLEM_NOT_FOUND")) := by
  constructor
  · exact (rejoin_validation sampleStore "alice" "sockA2" "m1" sampleProblems).1.mpr
      ⟨sampleMatch, by decide, rfl, Or.inl rfl, by decide⟩
  · refine (rejoin_validation sampleStore "zoe" "sockZ" "m1" sampleProblems).2 ?_
    rintro ⟨m2, hm2, -, hpart, -⟩
    have hgm : RedisService.getMatch sampleStore "m1" = some sampleMatch := by decide
    rw [hgm] at hm2
    rw [← Option.some_inj.mp hm2] at hpart
    rcases hpart with h | h <;> exact absurd h (by decide)

/-! ## C4: match timeout registration and firing -/

/-- Hash with only the status field replaced (the effect of the plain
`HSET status` in updateMatchStatus on an existing hash). -/
def setStatusHash (hh : MatchHash) (s2 : String) : MatchHash :=
  { hh with status := s2 }

/-- Updating only the status field commutes with decoding: every other
component, the (null) winnerId included, is unchanged. -/
theorem decodeMatch_setStatus {h : MatchHash} {m : MatchState}
    (hdec : RedisService.decodeMatch h = some m) (s2 : String) :
    RedisService.decodeMatch ({ h with status := s2 })
      = some ({ m with status := s2 }) := by
  unfold RedisService.decodeMatch at hdec ⊢
  split at hdec
  · exact absurd hdec (by simp)
  · rename_i hid
    rw [if_neg (show ¬(({ h with status := s2 } : MatchHash).id = "") from hid)]
    split at hdec
    · rename_i e1 e2 t0 fin hp1 hp2 hp3 hp4
      rw [Option.some_inj] at hdec
      rw [show jsParseInt ({ h with status := s2 } : MatchHash).player1_elo
            = some e1 from hp1,
          show jsParseInt ({ h with status := s2 } : MatchHash).player2_elo
            = some e2 from hp2,
          show jsParseInt ({ h with status := s2 } : MatchHash).startedAt
            = some t0 from hp3,
          show (if ({ h with status := s2 } : MatchHash).finishedAt = ""
              then some none
              else (jsParseInt ({ h with status := s2 } : MatchHash).finishedAt).map
                some) = some fin from hp4]
      rw [← hdec]
    · exact absurd hdec (by simp)

/-- Counterexample to C4 as stated: createBotMatch creates a live match
(the store holds it, status active) but registers only the delayed
bot-start timer — no match-timeout callback is scheduled on the bot
path. -/
theorem botMatch_no_timeout_counterexample :
    (RedisService.getMatch
        (MatchmakingService.createBotMatch emptyStore (qEntry "carol" "sockC" "Carol")
          ⟨"bot_1", "CodeNinja_47"⟩ "bm1" (some sampleProblem) 500).store
        "bm1").isSome = true ∧
    (MatchmakingService.createBotMatch emptyStore (qEntry "carol" "sockC" "Carol")
        ⟨"bot_1", "CodeNinja_47"⟩ "bm1" (some sampleProblem) 500).timers
      = [Timer.botStartTimer "bm1" 3000] := by
  exact ⟨by decide, rfl⟩

/-- C4 (amended): the human-human path registers the match-timeout
callback (default 1800000 ms when the configured value is falsy), while
the bot path registers only the delayed bot start; when the timeout fires
on a still-active match it forces the status to finished — leaving
winnerId and every other field unchanged — and emits the null-winner
game_over to the room, and when the match is gone or already finished it
changes nothing and emits nothing. -/
theorem match_timeout_behavior :
    (∀ (st : RedisStore) (p1 p2 : QueueEntry) (mid : String) (problem : Problem)
      (cfg now : Int),
      (MatchmakingService.createMatch st p1 p2 mid (some problem) cfg now).timers
        = [Timer.matchTimeout mid (MatchmakingService.effectiveTimeoutMs cfg)]) ∧
    MatchmakingService.effectiveTimeoutMs 0 = 1800000 ∧
    (∀ (st : RedisStore) (player : QueueEntry) (bot : MatchmakingService.BotInfo)
      (mid : String) (problem : Problem) (now : Int),
      (MatchmakingService.createBotMatch st player bot mid (some problem) now).timers
        = [Timer.botStartTimer mid 3000]) ∧
    (∀ (st : RedisStore) (mid : String) (m : MatchState),
      RedisService.getMatch st mid = some m → m.status = "active" →
      MatchmakingService.matchTimeoutFired st mid
        = (RedisService.updateMatchStatus st mid "finished",
           [Event.gameOver (.room mid) none "Match timed out - no winner" none]) ∧
      RedisService.getMatch (MatchmakingService.matchTimeoutFired st mid).1 mid
        = some ({ m with status := "finished" })) ∧
    (∀ (st : RedisStore) (mid : String) (m : MatchState),
      RedisService.getMatch st mid = some m → m.status ≠ "active" →
      MatchmakingService.matchTimeoutFired st mid = (st, [])) ∧
    (∀ (st : RedisStore) (mid : String),
      RedisService.getMatch st mid = none →
      MatchmakingService.matchTimeoutFired st mid = (st, [])) := by
  refine ⟨fun st p1 p2 mid problem cfg now => rfl, rfl,
    fun st player bot mid problem now => rfl, ?_, ?_, ?_⟩
  · intro st mid m hm hact
    obtain ⟨hh, hl, hdec⟩ := getMatch_elim hm
    have hfire : MatchmakingService.matchTimeoutFired st mid
        = (RedisService.updateMatchStatus st mid "finished",
           [Event.gameOver (.room mid) none "Match timed out - no winner" none]) := by
      simp only [MatchmakingService.matchTimeoutFired, hm, hact, reduceIte]
    refine ⟨hfire, ?_⟩
    rw [hfire]
    have hupd : RedisService.updateMatchStatus st mid "finished"
        = { st with matchTable := updateAssoc st.matchTable mid (setStatusHash hh "finished") } := by
      unfold RedisService.updateMatchStatus setStatusHash
      rw [hl]
    rw [hupd]
    unfold RedisService.getMatch
    simp only [lookupAssoc_updateAssoc_self]
    exact decodeMatch_setStatus hdec "finished"
  · intro st mid m hm hnact
    simp only [MatchmakingService.matchTimeoutFired, hm, if_neg hnact]
  · intro st mid hm
    simp only [MatchmakingService.matchTimeoutFired, hm]

/-- Witness for C4 at concrete inputs: a human-human creation registering
the default timeout, the timeout firing on the active sample match, and
the no-op cases. -/
theorem match_timeout_behavior_witness :
    (MatchmakingService.createMatch emptyStore qU1 qU2 "m9" (some sampleProblem)
        0 500).timers = [Timer.matchTimeout "m9" 1800000] ∧
    RedisService.getMatch sampleStore "m1" = some sampleMatch ∧
    MatchmakingService.matchTimeoutFired sampleStore "m1"
      = (RedisService.updateMatchStatus sampleStore "m1" "finished",
         [Event.gameOver (.room "m1") none "Match timed out - no winner" none]) ∧
    RedisService.getMatch (MatchmakingService.matchTimeoutFired sampleStore "m1").1
        "m1" = some ({ sampleMatch with status := "finished" }) ∧
    MatchmakingService.matchTimeoutFired finishedStore "m1" = (finishedStore, []) ∧
    MatchmakingService.matchTimeoutFired emptyStore "zz" = (emptyStore, []) := by
  have h1 := match_timeout_behavior.1 emptyStore qU1 qU2 "m9" sampleProblem 0 500
  have h2 := match_timeout_behavior.2.2.2.1 sampleStore "m1" sampleMatch
    (by decide) rfl
  have h3 := match_timeout_behavior.2.2.2.2.1 finishedStore "m1" sampleMatchFinished
    (by decide) (by decide)
  have h4 := match_timeout_behavior.2.2.2.2.2 emptyStore "zz" (by decide)
  exact ⟨h1, by decide, h2.1, h2.2, h3, h4⟩

/-! ## C3: hidden test cases in match_found payloads -/

/-- Whether an event is a match_found payload containing a test case
marked hidden. -/
def payloadLeaksHidden (e : Event) : Bool :=
  match e with
  | .matchFound _ p => p.problem.testCases.any (fun tc => tc.isHidden)
  | _ => false

/-- C3 demonstration at the failing input: `sampleProblem` carries a
hidden test case; the human-human match_found payloads and the rejoin
payload for it withhold that test case, but the bot-match payload emitted
by createBotMatch carries it verbatim — hidden test cases are delivered to
the player on the bot path. -/
theorem botMatch_hidden_testcase_leak :
    sampleProblem.testCases.any (fun tc => tc.isHidden) = true ∧
    (MatchmakingService.createBotMatch emptyStore (qEntry "carol" "sockC" "Carol")
        ⟨"bot_1", "CodeNinja_47"⟩ "bm1" (some sampleProblem) 500).events.any
      payloadLeaksHidden = true ∧
    (MatchmakingService.createMatch emptyStore qU1 qU2 "m9" (some sampleProblem)
        0 500).events.any payloadLeaksHidden = false ∧
    (SocketServer.handleRejoinMatch sampleStore "alice" "sockA2" "m1"
        sampleProblems).2.any payloadLeaksHidden = false := by
  refine ⟨rfl, rfl, rfl, by decide⟩

end Deadlock
